import Mathlib

/-!
# PyTorch neural-net backend of KataGo-custom: embedding and checked properties

Source embedded: `cpp/neuralnet/pytorchbackend.cpp` (namespace `TorchNeuralNet`).
The fields `policyOptimism` and `rootPolicyOptimism` of `cpp/search/searchparams.h` are
documented there as "Interpolate geometrically between raw policy and optimistic policy";
the value that reaches `getOutput` is `NNResultBuf::policyOptimism`.

Conventions of the embedding.

* C++ `int` values are `Int`.  The only arithmetic on them is `nnYLen * nnXLen + 1`,
  which does not wrap for the board lengths the backend admits.
* `float`/`double` values are exact rationals (`ℚ`): every statement about numbers
  is a statement in exact arithmetic; casts between `double`, `float` and the tensor
  element type are the identity, and the `float` operations of `getOutput` are the exact
  ones.  The rounding of binary32 is not part of the embedding: a statement below that
  computes with `blendPolicy` describes the program up to that rounding.
* Memory reached through a raw pointer (`float*`, `NNResultBuf**`) or through the
  unchecked `operator[]` of a `std::vector` is a total map from offsets to values.
  The extent of an allocation is not part of the map; the indices that are used
  are exposed as lists (`rowIndices`, `policyIndices`) so that bounds can be stated.
  Distinct entries of `outputs` are distinct `NNOutput` objects.
* An exception is an `Except.error`; a failed `assert` is the error `assertFailed`.
* Calls that leave the file (`torch::jit::load`, `Module::forward`,
  `SymmetryHelpers::copyInputsWithSymmetry`, `SymmetryHelpers::copyOutputsWithSymmetry`,
  `NNModelVersion::getNum*Features`, `NNPos::MAX_NN_POLICY_SIZE`) are parameters.
-/

namespace TorchNeuralNet

/-! ## Types declared outside the file -/

/-- Three-valued switch `enabled_t` of `core/commontypes.h`, used by the source as
`enabled_t::False` and by callers as `enabled_t::True` / `enabled_t::Auto`. -/
inductive enabled_t where
  | False
  | True
  | Auto
  deriving DecidableEq, Repr

/-- Tensor element types the backend selects between (`torch::kFloat32`, `torch::kFloat16`). -/
inductive ScalarType where
  | kFloat32
  | kFloat16
  deriving DecidableEq, Repr

/-- Device kinds; the backend only builds `at::kCUDA` devices. -/
inductive DeviceType where
  | kCPU
  | kCUDA
  deriving DecidableEq, Repr

/-- Value `torch::Device(type, index)`. -/
structure Device where
  type : DeviceType
  index : Int
  deriving DecidableEq, Repr

/-- What the functions of this backend can throw or abort with. -/
inductive Err where
  /-- Exception `StringError(msg)`. -/
  | stringError (msg : String)
  /-- A failed `assert(expr)`. -/
  | assertFailed (expr : String)
  /-- An exception of the tensor library (`c10::Error`), e.g. from `torch::jit::load`. -/
  | torchError (msg : String)
  deriving DecidableEq, Repr

/-- A block of floats addressed from a base pointer. -/
abbrev Buf := Int → ℚ

/-- A host tensor whose leading dimension is the batch row: `row r` is the memory
behind `tensor[r].data_ptr<float>()`. -/
structure Tensor where
  shape : List Int
  row : Int → Buf

/-- The five tensors of `output_tuple[0]` that `getOutput` reads, already moved to the
CPU: `policyOutputs[row][channel][i]`, `valueOutputs[row][k]`, `miscValueOutputs[row][k]`,
`moreMiscValueOutputs[row][k]`, and `ownershipOutputs[row]` as flat memory. -/
structure ModelOutput where
  policyOutputs : Int → Int → Buf
  valueOutputs : Int → Buf
  miscValueOutputs : Int → Buf
  moreMiscValueOutputs : Int → Buf
  ownershipOutputs : Int → Buf

/-- A TorchScript module, `torch::jit::script::Module`: only its `forward` is used. -/
structure Module where
  forward : List Tensor → ModelOutput

/-- Record `NNResultBuf` restricted to the members `getOutput` reads. -/
structure NNResultBuf where
  rowSpatial : Buf
  rowGlobal : Buf
  symmetry : Int
  policyOptimism : ℚ

/-- Record `NNOutput` restricted to the members `getOutput` writes.  `whiteOwnerMap` is a
nullable pointer: `none` is `NULL`. -/
structure NNOutput where
  whiteWinProb : ℚ
  whiteLossProb : ℚ
  whiteNoResultProb : ℚ
  whiteScoreMean : ℚ
  whiteScoreMeanSq : ℚ
  whiteLead : ℚ
  varTimeLeft : ℚ
  shorttermWinlossError : ℚ
  shorttermScoreError : ℚ
  policyProbs : Buf
  whiteOwnerMap : Option Buf

/-- Everything `getOutput` and the constructors use that is defined in other files. -/
structure Externals where
  /-- Constant `NNModelVersion::getNumSpatialFeatures(MODEL_VERSION)`. -/
  NUM_SPATIAL_FEATURES : Int
  /-- Constant `NNModelVersion::getNumGlobalFeatures(MODEL_VERSION)`. -/
  NUM_GLOBAL_FEATURES : Int
  /-- Constant `NNPos::MAX_NN_POLICY_SIZE`. -/
  MAX_NN_POLICY_SIZE : Int
  /-- Call `copyInputsWithSymmetry(src, dst, nSize, hSize, wSize, cSize, useNHWC, symmetry)`:
  the contents of `dst` afterwards. -/
  copyInputsWithSymmetry : Buf → Buf → Int → Int → Int → Int → Bool → Int → Buf
  /-- Call `copyOutputsWithSymmetry(src, dst, nSize, hSize, wSize, symmetry)`:
  the contents of `dst` afterwards. -/
  copyOutputsWithSymmetry : Buf → Buf → Int → Int → Int → Int → Buf

/-! ## Constants of the anonymous namespace -/

def BOARD_LEN : Int := 19

def MODEL_VERSION : Int := 14

/-! ## Model loading -/

structure LoadedModel where
  model : Module

/-- Library call `torch::jit::load(fileName)`.  The argument `jitLoad` says what the
library yields for a file name: a module, or the message of the `c10::Error` it throws.
`loadCalls` is the list of file names the library has been asked to load so far; the call
adds its own file name at the end. -/
def torchJitLoad (jitLoad : String → Except String Module) (fileName : String)
    (loadCalls : List String) : Except String Module × List String :=
  (jitLoad fileName, loadCalls ++ [fileName])

/-- What a loading function leaves behind: the value it returns or the exception it throws,
and the file names `torch::jit::load` has been called on, in call order. -/
structure LoadOutcome where
  result : Except Err LoadedModel
  loadCalls : List String

/-- Constructor `LoadedModel::LoadedModel(const std::string& fileName)`: its only statement
is `model = torch::jit::load(fileName)`. -/
def LoadedModel.fromFile (jitLoad : String → Except String Module) (fileName : String)
    (loadCalls : List String) : LoadOutcome :=
  match torchJitLoad jitLoad fileName loadCalls with
  | (.ok m, calls) => { result := .ok { model := m }, loadCalls := calls }
  | (.error what, calls) => { result := .error (.torchError what), loadCalls := calls }

/-- Function `loadModelFile(file, expectedSha256)`, started with the load calls made so
far. -/
def loadModelFile (jitLoad : String → Except String Module) (file expectedSha256 : String)
    (loadCalls : List String) : LoadOutcome :=
  if expectedSha256.length ≠ 0 then
    { result := .error (.stringError "Checking sha256 for PyTorch models is not yet implemented.\n"),
      loadCalls := loadCalls }
  else
    LoadedModel.fromFile jitLoad file loadCalls

/-! ## Compute context -/

structure ComputeContext where
  nnXLen : Int
  nnYLen : Int
  dType : ScalarType
  deriving DecidableEq, Repr

/-- Constructor `ComputeContext::ComputeContext(nnXLen_, nnYLen_, useFP16)`. -/
def ComputeContext.new (nnXLen_ nnYLen_ : Int) (useFP16 : enabled_t) : ComputeContext :=
  { nnXLen := nnXLen_
    nnYLen := nnYLen_
    dType := if useFP16 = enabled_t.False then ScalarType.kFloat32 else ScalarType.kFloat16 }

/-- Function `createComputeContext`; the `Logger*` argument, which is discarded, is left out. -/
def createComputeContext (gpuIdxs : List Int) (nnXLen nnYLen : Int)
    (openCLTunerFile homeDataDirOverride : String) (openCLReTunePerBoardSize : Bool)
    (useFP16Mode useNHWCMode : enabled_t) (loadedModel : LoadedModel) :
    Except Err ComputeContext :=
  let _ := gpuIdxs
  let _ := openCLTunerFile
  let _ := homeDataDirOverride
  let _ := openCLReTunePerBoardSize
  let _ := loadedModel
  if useNHWCMode = enabled_t.False then
    .error (.stringError "useNHWC is not yet implemented for PyTorch.")
  else if nnXLen ≠ BOARD_LEN then
    .error (.assertFailed "nnXLen == BOARD_LEN")
  else if nnYLen ≠ BOARD_LEN then
    .error (.assertFailed "nnYLen == BOARD_LEN")
  else
    .ok (ComputeContext.new nnXLen nnYLen useFP16Mode)

/-! ## Compute handle -/

structure ComputeHandle where
  model : LoadedModel
  device : Device
  maxBatchSize : Int
  nnXLen : Int
  nnYLen : Int
  dType : ScalarType

/-- Constructor `ComputeHandle::ComputeHandle(context, model_, maxBatchSize_, gpuIdxForThisThread)`.
`clone`, `eval` and `to(device, dType)` leave the function computed by the module as it is. -/
def ComputeHandle.new (context : ComputeContext) (model_ : LoadedModel) (maxBatchSize_ : Int)
    (gpuIdxForThisThread : Int) : ComputeHandle :=
  { model := { model := model_.model }
    device := { type := DeviceType.kCUDA, index := gpuIdxForThisThread }
    maxBatchSize := maxBatchSize_
    nnXLen := context.nnXLen
    nnYLen := context.nnYLen
    dType := context.dType }

/-- Function `createComputeHandle`; the discarded `Logger*` argument is left out. -/
def createComputeHandle (context : ComputeContext) (loadedModel : LoadedModel)
    (maxBatchSize : Int) (requireExactNNLen inputsUseNHWC : Bool)
    (gpuIdxForThisThread serverThreadIdx : Int) : Except Err ComputeHandle :=
  let _ := requireExactNNLen
  let _ := serverThreadIdx
  if inputsUseNHWC then
    .error (.stringError "inputsUseNHWC is not yet implemented for PyTorch.")
  else
    let gpuIdxForThisThread := if gpuIdxForThisThread = -1 then 0 else gpuIdxForThisThread
    .ok (ComputeHandle.new context loadedModel maxBatchSize gpuIdxForThisThread)

/-! ## Input buffers -/

structure InputBuffers where
  hostSpatialInputs : Tensor
  hostGlobalInputs : Tensor
  modelInputs : List Tensor

/-- Constructor `InputBuffers::InputBuffers(maxBatchSize, nnXLen, nnYLen)`.  `torch::empty`
leaves the contents unspecified: they are the arguments `spatial0` and `global0`. -/
def InputBuffers.new (E : Externals) (spatial0 global0 : Int → Buf)
    (maxBatchSize nnXLen nnYLen : Int) : InputBuffers :=
  { hostSpatialInputs :=
      { shape := [maxBatchSize, E.NUM_SPATIAL_FEATURES, nnYLen, nnXLen], row := spatial0 }
    hostGlobalInputs := { shape := [maxBatchSize, E.NUM_GLOBAL_FEATURES], row := global0 }
    modelInputs := [] }

/-- Function `createInputBuffers(loadedModel, maxBatchSize, nnXLen, nnYLen)`. -/
def createInputBuffers (E : Externals) (spatial0 global0 : Int → Buf)
    (loadedModel : LoadedModel) (maxBatchSize nnXLen nnYLen : Int) : InputBuffers :=
  let _ := loadedModel
  InputBuffers.new E spatial0 global0 maxBatchSize nnXLen nnYLen

/-! ## Evaluation of a batch: `getOutput` -/

/-- The values the counter takes in `for (int k = 0; k < n; k++)`, in order. -/
def loopIndices (n : Int) : List Int :=
  (List.range n.toNat).map Int.ofNat

/-- Rows visited by both row loops of `getOutput`. -/
def rowIndices (batchSize : Int) : List Int :=
  loopIndices batchSize

/-- Indices `i` of the inner policy loop, `0 <= i < nnYLen * nnXLen + 1`. -/
def policyIndices (nnXLen nnYLen : Int) : List Int :=
  loopIndices (nnYLen * nnXLen + 1)

/-- Call `std::copy(first, first + count, dst)`: the contents of `dst` afterwards. -/
def stdCopy (first : Buf) (count : Int) (dst : Buf) : Buf :=
  fun j => if 0 ≤ j ∧ j < count then first j else dst j

/-- Store through `tensor[r].data_ptr<float>()`. -/
def Tensor.setRow (t : Tensor) (r : Int) (b : Buf) : Tensor :=
  { t with row := Function.update t.row r b }

def INPUTS_USE_NHWC : Bool := false

/-- Body of the first row loop (source lines 158-160). -/
def fillInputRow (E : Externals) (nnXLen nnYLen : Int) (inputBufs : Int → NNResultBuf)
    (inputBuffers : InputBuffers) (row : Int) : InputBuffers :=
  { inputBuffers with
    hostSpatialInputs :=
      inputBuffers.hostSpatialInputs.setRow row
        (E.copyInputsWithSymmetry (inputBufs row).rowSpatial
          (inputBuffers.hostSpatialInputs.row row) 1 nnYLen nnXLen E.NUM_SPATIAL_FEATURES
          INPUTS_USE_NHWC (inputBufs row).symmetry)
    hostGlobalInputs :=
      inputBuffers.hostGlobalInputs.setRow row
        (stdCopy (inputBufs row).rowGlobal E.NUM_GLOBAL_FEATURES
          (inputBuffers.hostGlobalInputs.row row)) }

/-- The first row loop (source lines 157-161). -/
def fillInputs (E : Externals) (nnXLen nnYLen : Int) (inputBufs : Int → NNResultBuf)
    (batchSize : Int) (inputBuffers : InputBuffers) : InputBuffers :=
  (rowIndices batchSize).foldl (fillInputRow E nnXLen nnYLen inputBufs) inputBuffers

/-- Source lines 163-166: `modelInputs` is cleared and receives the two host tensors,
moved to the device in the handle's element type. -/
def setModelInputs (inputBuffers : InputBuffers) : InputBuffers :=
  { inputBuffers with
    modelInputs := [inputBuffers.hostSpatialInputs, inputBuffers.hostGlobalInputs] }

/-- Right-hand side of source line 191, `p + (pOptimistic - p) * policyOptimism`, read in
exact arithmetic: the source evaluates the subtraction, the product and the sum in `float`
(binary32), each rounded, after the cast of `policyOptimism` from `double`; here the three
operations are the exact ones and the cast is the identity. -/
def blendPolicy (p pOptimistic policyOptimism : ℚ) : ℚ :=
  p + (pOptimistic - p) * policyOptimism

/-- The inner policy loop (source lines 188-192): the contents of `policyProbsTmp`
afterwards. -/
def fillPolicyProbsTmp (nnXLen nnYLen : Int) (policyOutput optimisticPolicyOutput : Buf)
    (policyOptimism : ℚ) (policyProbsTmp : Buf) : Buf :=
  (policyIndices nnXLen nnYLen).foldl
    (fun tmp i =>
      Function.update tmp i (blendPolicy (policyOutput i) (optimisticPolicyOutput i) policyOptimism))
    policyProbsTmp

/-- Source lines 193-214 for one row: the object behind `outputs[row]` afterwards, given
`policyProbsTmp` as the inner loop left it. -/
def outputRow (E : Externals) (nnXLen nnYLen : Int) (inputBufs : Int → NNResultBuf)
    (mo : ModelOutput) (policyProbsTmp : Buf) (output : NNOutput) (row : Int) : NNOutput :=
  let policyProbs :=
    E.copyOutputsWithSymmetry policyProbsTmp output.policyProbs 1 nnYLen nnXLen
      (inputBufs row).symmetry
  let policyProbs :=
    Function.update policyProbs (nnYLen * nnXLen) (policyProbsTmp (nnYLen * nnXLen))
  let valueOutput := mo.valueOutputs row
  let miscValueOutput := mo.miscValueOutputs row
  let moreMiscValueOutput := mo.moreMiscValueOutputs row
  { whiteWinProb := valueOutput 0
    whiteLossProb := valueOutput 1
    whiteNoResultProb := valueOutput 2
    whiteScoreMean := miscValueOutput 0
    whiteScoreMeanSq := miscValueOutput 1
    whiteLead := miscValueOutput 2
    varTimeLeft := miscValueOutput 3
    shorttermWinlossError := moreMiscValueOutput 0
    shorttermScoreError := moreMiscValueOutput 1
    policyProbs := policyProbs
    whiteOwnerMap :=
      match output.whiteOwnerMap with
      | none => none
      | some ownerMap =>
        some (E.copyOutputsWithSymmetry (mo.ownershipOutputs row) ownerMap 1 nnYLen nnXLen
          (inputBufs row).symmetry) }

/-- What the second row loop carries from one row to the next. -/
structure OutputState where
  policyProbsTmp : Buf
  outputs : Int → NNOutput

/-- Body of the second row loop (source lines 183-214). -/
def writeOutputRow (E : Externals) (nnXLen nnYLen : Int) (inputBufs : Int → NNResultBuf)
    (mo : ModelOutput) (st : OutputState) (row : Int) : OutputState :=
  let output := st.outputs row
  let policyOptimism := (inputBufs row).policyOptimism
  let policyOutput := mo.policyOutputs row 0
  let optimisticPolicyOutput := mo.policyOutputs row 5
  let policyProbsTmp :=
    fillPolicyProbsTmp nnXLen nnYLen policyOutput optimisticPolicyOutput policyOptimism
      st.policyProbsTmp
  { policyProbsTmp := policyProbsTmp
    outputs :=
      Function.update st.outputs row
        (outputRow E nnXLen nnYLen inputBufs mo policyProbsTmp output row) }

/-- The second row loop (source lines 181-215); `policyProbsTmp0` is the unspecified
initial content of the local array. -/
def writeOutputs (E : Externals) (nnXLen nnYLen : Int) (inputBufs : Int → NNResultBuf)
    (mo : ModelOutput) (batchSize : Int) (policyProbsTmp0 : Buf) (outputs : Int → NNOutput) :
    OutputState :=
  (rowIndices batchSize).foldl (writeOutputRow E nnXLen nnYLen inputBufs mo)
    { policyProbsTmp := policyProbsTmp0, outputs := outputs }

/-- The tensors `getOutput` hands to the model (source lines 157-166). -/
def stagedInputs (E : Externals) (gpuHandle : ComputeHandle) (inputBuffers : InputBuffers)
    (numBatchEltsFilled : Int) (inputBufs : Int → NNResultBuf) : InputBuffers :=
  setModelInputs
    (fillInputs E gpuHandle.nnXLen gpuHandle.nnYLen inputBufs numBatchEltsFilled inputBuffers)

/-- The model's answer inside `getOutput` (source lines 168-179). -/
def modelOutputOf (E : Externals) (gpuHandle : ComputeHandle) (inputBuffers : InputBuffers)
    (numBatchEltsFilled : Int) (inputBufs : Int → NNResultBuf) : ModelOutput :=
  gpuHandle.model.model.forward
    (stagedInputs E gpuHandle inputBuffers numBatchEltsFilled inputBufs).modelInputs

/-- What `getOutput` leaves behind: the input buffers and the objects behind `outputs`. -/
structure GetOutputResult where
  inputBuffers : InputBuffers
  outputs : Int → NNOutput

/-- Function `getOutput(gpuHandle, inputBuffers, numBatchEltsFilled, inputBufs, outputs)`. -/
def getOutput (E : Externals) (gpuHandle : ComputeHandle) (inputBuffers : InputBuffers)
    (numBatchEltsFilled : Int) (inputBufs : Int → NNResultBuf) (outputs : Int → NNOutput)
    (policyProbsTmp0 : Buf) : Except Err GetOutputResult :=
  let batchSize := numBatchEltsFilled
  if ¬ batchSize ≤ gpuHandle.maxBatchSize then
    .error (.assertFailed "batchSize <= gpuHandle->maxBatchSize")
  else if ¬ batchSize > 0 then
    .error (.assertFailed "batchSize > 0")
  else
    let nnXLen := gpuHandle.nnXLen
    let nnYLen := gpuHandle.nnYLen
    let inputBuffers := stagedInputs E gpuHandle inputBuffers batchSize inputBufs
    let modelOutput := gpuHandle.model.model.forward inputBuffers.modelInputs
    let st := writeOutputs E nnXLen nnYLen inputBufs modelOutput batchSize policyProbsTmp0 outputs
    .ok { inputBuffers := inputBuffers, outputs := st.outputs }

/-! ## Notions used to state the properties -/

/-- An output record with its ownership pointer set to `NULL`: everything of the record
except the ownership map. -/
def withoutOwnerMap (output : NNOutput) : NNOutput :=
  { output with whiteOwnerMap := none }

/-- The board cells of a plane with `nnYLen` rows and `nnXLen` columns, as offsets. -/
def isBoardCell (nnXLen nnYLen i : Int) : Prop :=
  0 ≤ i ∧ i < nnYLen * nnXLen

instance (nnXLen nnYLen i : Int) : Decidable (isBoardCell nnXLen nnYLen i) := by
  unfold isBoardCell
  infer_instance

/-- The output copy with a tag undoes the input copy with the same tag on a single plane:
whenever `tmp` holds, on the board cells, what the input copy makes of a plane `x`, the
output copy of `tmp` holds `x` on the board cells. -/
def OutputCopyInvertsInputCopy (E : Externals) (nnXLen nnYLen : Int) : Prop :=
  ∀ (x tmp dIn dOut : Buf) (symmetry : Int),
    (∀ i, isBoardCell nnXLen nnYLen i →
      tmp i = E.copyInputsWithSymmetry x dIn 1 nnYLen nnXLen 1 INPUTS_USE_NHWC symmetry i) →
    ∀ i, isBoardCell nnXLen nnYLen i →
      E.copyOutputsWithSymmetry tmp dOut 1 nnYLen nnXLen symmetry i = x i

/-- Entry `i` of channel 0 of row `row` of the policy tensor the model answers with inside
`getOutput`: the raw policy value `p`. -/
def rawPolicyOf (E : Externals) (gpuHandle : ComputeHandle) (inputBuffers : InputBuffers)
    (numBatchEltsFilled : Int) (inputBufs : Int → NNResultBuf) (row i : Int) : ℚ :=
  (modelOutputOf E gpuHandle inputBuffers numBatchEltsFilled inputBufs).policyOutputs row 0 i

/-- Entry `i` of channel 5 of row `row` of the same tensor: the optimistic policy value `q`. -/
def optimisticPolicyOf (E : Externals) (gpuHandle : ComputeHandle) (inputBuffers : InputBuffers)
    (numBatchEltsFilled : Int) (inputBufs : Int → NNResultBuf) (row i : Int) : ℚ :=
  (modelOutputOf E gpuHandle inputBuffers numBatchEltsFilled inputBufs).policyOutputs row 5 i

/-- Leading dimension of a host tensor, `tensor.size(0)`: the number of batch rows it was
allocated with (0 for a tensor without dimensions). -/
def Tensor.numRows (t : Tensor) : Int :=
  t.shape.headD 0

/-! ## A concrete instance

Symmetry helpers, a module and a batch on which the statements below are evaluated. -/

/-- Cell transform of the sample helpers: a tag with bit 0 set turns the plane by half a
turn, any other tag leaves it as it is. -/
def sampleCellMap (hSize wSize symmetry cell : Int) : Int :=
  if symmetry % 2 = 1 then hSize * wSize - 1 - cell else cell

/-- Sample `copyOutputsWithSymmetry`: planes of `hSize * wSize` cells, each transformed. -/
def sampleCopyOutputs (src dst : Buf) (nSize hSize wSize symmetry : Int) : Buf :=
  fun i =>
    if 0 ≤ i ∧ i < nSize * (hSize * wSize) then
      src (i / (hSize * wSize) * (hSize * wSize)
        + sampleCellMap hSize wSize symmetry (i % (hSize * wSize)))
    else dst i

/-- Sample `copyInputsWithSymmetry`: in NCHW layout every channel plane is transformed;
in NHWC layout the cell of every entry is transformed. -/
def sampleCopyInputs (src dst : Buf) (nSize hSize wSize cSize : Int) (useNHWC : Bool)
    (symmetry : Int) : Buf :=
  fun i =>
    if 0 ≤ i ∧ i < nSize * cSize * (hSize * wSize) then
      if useNHWC then
        src (i / (cSize * (hSize * wSize)) * (cSize * (hSize * wSize))
          + sampleCellMap hSize wSize symmetry (i % (cSize * (hSize * wSize)) / cSize) * cSize
          + i % cSize)
      else
        src (i / (hSize * wSize) * (hSize * wSize)
          + sampleCellMap hSize wSize symmetry (i % (hSize * wSize)))
    else dst i

def sampleExternals : Externals :=
  { NUM_SPATIAL_FEATURES := 22
    NUM_GLOBAL_FEATURES := 19
    MAX_NN_POLICY_SIZE := 362
    copyInputsWithSymmetry := sampleCopyInputs
    copyOutputsWithSymmetry := sampleCopyOutputs }

/-- A module that echoes its inputs: the raw policy of a row is the row's spatial input,
the optimistic policy is 3 above it, the value heads read the global input, the ownership
is the spatial input. -/
def sampleForward (inputs : List Tensor) : ModelOutput :=
  match inputs with
  | [spatial, glob] =>
    { policyOutputs := fun row channel i => spatial.row row i + (if channel = 5 then 3 else 0)
      valueOutputs := fun row k => glob.row row k
      miscValueOutputs := fun row k => glob.row row (k + 3)
      moreMiscValueOutputs := fun row k => glob.row row (k + 7)
      ownershipOutputs := fun row => spatial.row row }
  | _ =>
    { policyOutputs := fun _ _ _ => 0
      valueOutputs := fun _ _ => 0
      miscValueOutputs := fun _ _ => 0
      moreMiscValueOutputs := fun _ _ => 0
      ownershipOutputs := fun _ _ => 0 }

def sampleLoadedModel : LoadedModel :=
  { model := { forward := sampleForward } }

/-- Sample `torch::jit::load`: the file "model.pt" holds the echoing module, no other file
can be opened. -/
def sampleJitLoad (fileName : String) : Except String Module :=
  if fileName = "model.pt" then .ok { forward := sampleForward } else .error "cannot open file"

def sampleContext : ComputeContext :=
  ComputeContext.new 19 19 enabled_t.False

def sampleHandle : ComputeHandle :=
  ComputeHandle.new sampleContext sampleLoadedModel 4 0

def sampleInputBuffers : InputBuffers :=
  createInputBuffers sampleExternals (fun _ _ => 0) (fun _ _ => 0) sampleLoadedModel 4 19 19

/-- Row `row` of the sample batch: the first spatial plane holds `i + 1` at cell `i`, the
other planes hold 1; global feature `k` is `row * (k + 1)`; the tag is `row + 3`; the
policy optimism is 0 for row 0 and 1/2 for the other rows. -/
def sampleInputBufs (row : Int) : NNResultBuf :=
  { rowSpatial := fun i => if i < 361 then (i : ℚ) + 1 else 1
    rowGlobal := fun k => (row : ℚ) * ((k : ℚ) + 1)
    symmetry := row + 3
    policyOptimism := if row = 0 then 0 else 1 / 2 }

def sampleOutput : NNOutput :=
  { whiteWinProb := 0
    whiteLossProb := 0
    whiteNoResultProb := 0
    whiteScoreMean := 0
    whiteScoreMeanSq := 0
    whiteLead := 0
    varTimeLeft := 0
    shorttermWinlossError := 0
    shorttermScoreError := 0
    policyProbs := fun _ => 0
    whiteOwnerMap := some (fun _ => 0) }

/-- Sample `outputs`: even rows ask for the ownership map, odd rows pass `NULL`. -/
def sampleOutputs (row : Int) : NNOutput :=
  if row % 2 = 0 then sampleOutput else { sampleOutput with whiteOwnerMap := none }

def sampleTmp : Buf :=
  fun _ => 0

/-! ## Lemmas on the loops -/

theorem mem_loopIndices (n i : Int) : i ∈ loopIndices n ↔ 0 ≤ i ∧ i < n := by
  unfold loopIndices
  simp only [List.mem_map, List.mem_range]
  constructor
  · rintro ⟨k, hk, rfl⟩
    constructor
    · exact Int.ofNat_nonneg k
    · have : (k : Int) < (n.toNat : Int) := by exact_mod_cast hk
      have h2 : (n.toNat : Int) = max n 0 := Int.toNat_eq_max n
      rw [h2] at this
      rcases le_total n 0 with h | h
      · rw [max_eq_right h] at this
        have := Int.ofNat_nonneg k
        omega
      · rw [max_eq_left h] at this
        exact this
  · rintro ⟨h0, hn⟩
    refine ⟨i.toNat, ?_, Int.toNat_of_nonneg h0⟩
    exact (Int.toNat_lt_toNat (by omega)).mpr hn

theorem loopIndices_nodup (n : Int) : (loopIndices n).Nodup := by
  unfold loopIndices
  exact (List.nodup_range _).map (fun a b h => Int.ofNat.inj h)

theorem foldl_update_apply (g : Int → ℚ) (l : List Int) (t : Buf) (j : Int) :
    (l.foldl (fun tmp i => Function.update tmp i (g i)) t) j = if j ∈ l then g j else t j := by
  induction l generalizing t with
  | nil => simp
  | cons a l ih =>
    rw [List.foldl_cons, ih]
    by_cases hj : j ∈ l
    · simp [hj]
    · by_cases hja : j = a
      · subst hja
        simp [hj]
      · simp [hj, hja]

theorem fillPolicyProbsTmp_apply (nnXLen nnYLen : Int) (p q : Buf) (w : ℚ) (t : Buf) (i : Int) :
    fillPolicyProbsTmp nnXLen nnYLen p q w t i =
      if 0 ≤ i ∧ i < nnYLen * nnXLen + 1 then blendPolicy (p i) (q i) w else t i := by
  unfold fillPolicyProbsTmp policyIndices
  rw [foldl_update_apply (fun i => blendPolicy (p i) (q i) w)]
  simp only [mem_loopIndices]

theorem foldl_writeOutputRow_of_not_mem (E : Externals) (nnXLen nnYLen : Int)
    (inputBufs : Int → NNResultBuf) (mo : ModelOutput) (l : List Int) (st : OutputState)
    (r : Int) (hr : r ∉ l) :
    (l.foldl (writeOutputRow E nnXLen nnYLen inputBufs mo) st).outputs r = st.outputs r := by
  induction l generalizing st with
  | nil => rfl
  | cons a l ih =>
    rw [List.foldl_cons, ih _ (fun h => hr (List.mem_cons_of_mem _ h))]
    have hra : r ≠ a := fun h => hr (h ▸ List.mem_cons_self _ _)
    simp [writeOutputRow, Function.update_noteq hra]

theorem foldl_writeOutputRow_of_mem (E : Externals) (nnXLen nnYLen : Int)
    (inputBufs : Int → NNResultBuf) (mo : ModelOutput) (l : List Int) (hl : l.Nodup)
    (st : OutputState) (r : Int) (hr : r ∈ l) :
    ∃ tmpBefore : Buf,
      (l.foldl (writeOutputRow E nnXLen nnYLen inputBufs mo) st).outputs r =
        outputRow E nnXLen nnYLen inputBufs mo
          (fillPolicyProbsTmp nnXLen nnYLen (mo.policyOutputs r 0) (mo.policyOutputs r 5)
            (inputBufs r).policyOptimism tmpBefore)
          (st.outputs r) r := by
  induction l generalizing st with
  | nil => exact absurd hr (List.not_mem_nil _)
  | cons a l ih =>
    rw [List.nodup_cons] at hl
    rw [List.foldl_cons]
    rcases List.mem_cons.mp hr with rfl | hrl
    · refine ⟨st.policyProbsTmp, ?_⟩
      rw [foldl_writeOutputRow_of_not_mem _ _ _ _ _ _ _ _ hl.1]
      simp [writeOutputRow]
    · obtain ⟨tmpBefore, h⟩ := ih hl.2 (writeOutputRow E nnXLen nnYLen inputBufs mo st a) hrl
      refine ⟨tmpBefore, ?_⟩
      rw [h]
      have hra : r ≠ a := fun h => hl.1 (h ▸ hrl)
      simp [writeOutputRow, Function.update_noteq hra]

theorem foldl_fillInputRow_spatial (E : Externals) (nnXLen nnYLen : Int)
    (inputBufs : Int → NNResultBuf) (l : List Int) (hl : l.Nodup) (ib : InputBuffers) (r : Int) :
    (l.foldl (fillInputRow E nnXLen nnYLen inputBufs) ib).hostSpatialInputs.row r =
      if r ∈ l then
        E.copyInputsWithSymmetry (inputBufs r).rowSpatial (ib.hostSpatialInputs.row r) 1 nnYLen
          nnXLen E.NUM_SPATIAL_FEATURES INPUTS_USE_NHWC (inputBufs r).symmetry
      else ib.hostSpatialInputs.row r := by
  induction l generalizing ib with
  | nil => simp
  | cons a l ih =>
    rw [List.nodup_cons] at hl
    rw [List.foldl_cons, ih hl.2]
    by_cases hra : r = a
    · subst hra
      simp [hl.1, fillInputRow, Tensor.setRow]
    · by_cases hrl : r ∈ l
      · simp [hrl, fillInputRow, Tensor.setRow, Function.update_noteq hra]
      · simp [hrl, hra, fillInputRow, Tensor.setRow, Function.update_noteq hra]

theorem foldl_fillInputRow_global (E : Externals) (nnXLen nnYLen : Int)
    (inputBufs : Int → NNResultBuf) (l : List Int) (hl : l.Nodup) (ib : InputBuffers) (r : Int) :
    (l.foldl (fillInputRow E nnXLen nnYLen inputBufs) ib).hostGlobalInputs.row r =
      if r ∈ l then
        stdCopy (inputBufs r).rowGlobal E.NUM_GLOBAL_FEATURES (ib.hostGlobalInputs.row r)
      else ib.hostGlobalInputs.row r := by
  induction l generalizing ib with
  | nil => simp
  | cons a l ih =>
    rw [List.nodup_cons] at hl
    rw [List.foldl_cons, ih hl.2]
    by_cases hra : r = a
    · subst hra
      simp [hl.1, fillInputRow, Tensor.setRow]
    · by_cases hrl : r ∈ l
      · simp [hrl, fillInputRow, Tensor.setRow, Function.update_noteq hra]
      · simp [hrl, hra, fillInputRow, Tensor.setRow, Function.update_noteq hra]

theorem getOutput_eq_ok (E : Externals) (gpuHandle : ComputeHandle) (inputBuffers : InputBuffers)
    (n : Int) (inputBufs : Int → NNResultBuf) (outputs : Int → NNOutput) (tmp0 : Buf)
    (h1 : 1 ≤ n) (h2 : n ≤ gpuHandle.maxBatchSize) :
    getOutput E gpuHandle inputBuffers n inputBufs outputs tmp0 =
      .ok { inputBuffers := stagedInputs E gpuHandle inputBuffers n inputBufs
            outputs :=
              (writeOutputs E gpuHandle.nnXLen gpuHandle.nnYLen inputBufs
                (modelOutputOf E gpuHandle inputBuffers n inputBufs) n tmp0 outputs).outputs } := by
  have h3 : n > 0 := by omega
  simp [getOutput, h2, h3, modelOutputOf]

theorem writeOutputs_row (E : Externals) (nnXLen nnYLen : Int) (inputBufs : Int → NNResultBuf)
    (mo : ModelOutput) (n : Int) (tmp0 : Buf) (outputs : Int → NNOutput) (r : Int)
    (hr0 : 0 ≤ r) (hr : r < n) :
    ∃ tmpBefore : Buf,
      (writeOutputs E nnXLen nnYLen inputBufs mo n tmp0 outputs).outputs r =
        outputRow E nnXLen nnYLen inputBufs mo
          (fillPolicyProbsTmp nnXLen nnYLen (mo.policyOutputs r 0) (mo.policyOutputs r 5)
            (inputBufs r).policyOptimism tmpBefore)
          (outputs r) r := by
  unfold writeOutputs rowIndices
  exact foldl_writeOutputRow_of_mem E nnXLen nnYLen inputBufs mo _ (loopIndices_nodup n) _ r
    ((mem_loopIndices n r).mpr ⟨hr0, hr⟩)

theorem writeOutputs_outside (E : Externals) (nnXLen nnYLen : Int)
    (inputBufs : Int → NNResultBuf) (mo : ModelOutput) (n : Int) (tmp0 : Buf)
    (outputs : Int → NNOutput) (k : Int) (hk : k < 0 ∨ n ≤ k) :
    (writeOutputs E nnXLen nnYLen inputBufs mo n tmp0 outputs).outputs k = outputs k := by
  unfold writeOutputs rowIndices
  refine foldl_writeOutputRow_of_not_mem E nnXLen nnYLen inputBufs mo _ _ k ?_
  rw [mem_loopIndices]
  omega

theorem stagedInputs_spatial_row (E : Externals) (gpuHandle : ComputeHandle)
    (inputBuffers : InputBuffers) (n : Int) (inputBufs : Int → NNResultBuf) (r : Int) :
    (stagedInputs E gpuHandle inputBuffers n inputBufs).hostSpatialInputs.row r =
      if 0 ≤ r ∧ r < n then
        E.copyInputsWithSymmetry (inputBufs r).rowSpatial (inputBuffers.hostSpatialInputs.row r)
          1 gpuHandle.nnYLen gpuHandle.nnXLen E.NUM_SPATIAL_FEATURES INPUTS_USE_NHWC
          (inputBufs r).symmetry
      else inputBuffers.hostSpatialInputs.row r := by
  unfold stagedInputs setModelInputs fillInputs rowIndices
  simp only
  rw [foldl_fillInputRow_spatial _ _ _ _ _ (loopIndices_nodup n)]
  simp only [mem_loopIndices]

theorem stagedInputs_global_row (E : Externals) (gpuHandle : ComputeHandle)
    (inputBuffers : InputBuffers) (n : Int) (inputBufs : Int → NNResultBuf) (r : Int) :
    (stagedInputs E gpuHandle inputBuffers n inputBufs).hostGlobalInputs.row r =
      if 0 ≤ r ∧ r < n then
        stdCopy (inputBufs r).rowGlobal E.NUM_GLOBAL_FEATURES
          (inputBuffers.hostGlobalInputs.row r)
      else inputBuffers.hostGlobalInputs.row r := by
  unfold stagedInputs setModelInputs fillInputs rowIndices
  simp only
  rw [foldl_fillInputRow_global _ _ _ _ _ (loopIndices_nodup n)]
  simp only [mem_loopIndices]

theorem stagedInputs_modelInputs (E : Externals) (gpuHandle : ComputeHandle)
    (inputBuffers : InputBuffers) (n : Int) (inputBufs : Int → NNResultBuf) :
    (stagedInputs E gpuHandle inputBuffers n inputBufs).modelInputs =
      [(stagedInputs E gpuHandle inputBuffers n inputBufs).hostSpatialInputs,
       (stagedInputs E gpuHandle inputBuffers n inputBufs).hostGlobalInputs] := by
  rfl

theorem blendPolicy_zero (p q : ℚ) : blendPolicy p q 0 = p := by
  simp [blendPolicy]

theorem blendPolicy_one (p q : ℚ) : blendPolicy p q 1 = q := by
  simp [blendPolicy]

theorem blendPolicy_between (p q w : ℚ) (h0 : 0 ≤ w) (h1 : w ≤ 1) :
    min p q ≤ blendPolicy p q w ∧ blendPolicy p q w ≤ max p q := by
  unfold blendPolicy
  rcases le_total p q with h | h
  · rw [min_eq_left h, max_eq_right h]
    constructor <;> nlinarith
  · rw [min_eq_right h, max_eq_left h]
    constructor <;> nlinarith

/-- Under the two assertions, `getOutput` returns, and row `r` of the batch is written from
`policyProbsTmp` as the inner loop of that row left it. -/
theorem getOutput_row (E : Externals) (gpuHandle : ComputeHandle) (inputBuffers : InputBuffers)
    (n : Int) (inputBufs : Int → NNResultBuf) (outputs : Int → NNOutput) (tmp0 : Buf)
    (h1 : 1 ≤ n) (h2 : n ≤ gpuHandle.maxBatchSize) (r : Int) (hr0 : 0 ≤ r) (hr : r < n) :
    ∃ res tmp,
      getOutput E gpuHandle inputBuffers n inputBufs outputs tmp0 = .ok res
      ∧ res.inputBuffers = stagedInputs E gpuHandle inputBuffers n inputBufs
      ∧ res.outputs r =
          outputRow E gpuHandle.nnXLen gpuHandle.nnYLen inputBufs
            (modelOutputOf E gpuHandle inputBuffers n inputBufs) tmp (outputs r) r
      ∧ ∀ i, 0 ≤ i → i < gpuHandle.nnYLen * gpuHandle.nnXLen + 1 →
          tmp i =
            blendPolicy ((modelOutputOf E gpuHandle inputBuffers n inputBufs).policyOutputs r 0 i)
              ((modelOutputOf E gpuHandle inputBuffers n inputBufs).policyOutputs r 5 i)
              (inputBufs r).policyOptimism := by
  obtain ⟨tmpBefore, hrow⟩ :=
    writeOutputs_row E gpuHandle.nnXLen gpuHandle.nnYLen inputBufs
      (modelOutputOf E gpuHandle inputBuffers n inputBufs) n tmp0 outputs r hr0 hr
  refine ⟨_, _, getOutput_eq_ok E gpuHandle inputBuffers n inputBufs outputs tmp0 h1 h2, rfl,
    hrow, ?_⟩
  intro i hi0 hi
  rw [fillPolicyProbsTmp_apply, if_pos ⟨hi0, hi⟩]


/-! ## Construction-time guards -/

theorem string_length_eq_zero_iff (s : String) : s.length = 0 ↔ s = "" := by
  constructor
  · intro h
    apply String.ext
    exact List.length_eq_zero.mp h
  · rintro rfl
    rfl

/-- C1 (as the code behaves): the guard of `createComputeContext` tests for
`enabled_t::False`.  With `useNHWCMode = True` and a 19 x 19 board it returns a context and
raises nothing; with `useNHWCMode = False` it raises the StringError
"useNHWC is not yet implemented for PyTorch." whatever the other arguments are. -/
theorem createComputeContext_guard_tests_False (gpuIdxs : List Int) (nnXLen nnYLen : Int)
    (openCLTunerFile homeDataDirOverride : String) (openCLReTunePerBoardSize : Bool)
    (useFP16Mode : enabled_t) (loadedModel : LoadedModel) :
    createComputeContext gpuIdxs 19 19 openCLTunerFile homeDataDirOverride
        openCLReTunePerBoardSize useFP16Mode enabled_t.True loadedModel
      = .ok (ComputeContext.new 19 19 useFP16Mode)
    ∧ createComputeContext gpuIdxs nnXLen nnYLen openCLTunerFile homeDataDirOverride
        openCLReTunePerBoardSize useFP16Mode enabled_t.False loadedModel
      = .error (.stringError "useNHWC is not yet implemented for PyTorch.") := by
  constructor
  · simp [createComputeContext, BOARD_LEN]
  · simp [createComputeContext]

/-- C2: `createComputeHandle` raises a StringError exactly when `inputsUseNHWC` is true, the
error being "inputsUseNHWC is not yet implemented for PyTorch."; with `inputsUseNHWC = false`
it returns a handle whose `maxBatchSize` is the argument and whose `nnXLen`, `nnYLen`, `dType`
are the context's, whatever the other arguments are. -/
theorem createComputeHandle_raises_iff_inputsUseNHWC (context : ComputeContext)
    (loadedModel : LoadedModel) (maxBatchSize : Int) (requireExactNNLen inputsUseNHWC : Bool)
    (gpuIdxForThisThread serverThreadIdx : Int) :
    ((∃ e, createComputeHandle context loadedModel maxBatchSize requireExactNNLen inputsUseNHWC
          gpuIdxForThisThread serverThreadIdx = .error e) ↔ inputsUseNHWC = true)
    ∧ createComputeHandle context loadedModel maxBatchSize requireExactNNLen true
          gpuIdxForThisThread serverThreadIdx
        = .error (.stringError "inputsUseNHWC is not yet implemented for PyTorch.")
    ∧ ∃ handle, createComputeHandle context loadedModel maxBatchSize requireExactNNLen false
          gpuIdxForThisThread serverThreadIdx = .ok handle
        ∧ handle.maxBatchSize = maxBatchSize ∧ handle.nnXLen = context.nnXLen
        ∧ handle.nnYLen = context.nnYLen ∧ handle.dType = context.dType := by
  refine ⟨?_, ?_, ?_⟩
  · cases inputsUseNHWC <;> simp [createComputeHandle]
  · simp [createComputeHandle]
  · exact ⟨ComputeHandle.new context loadedModel maxBatchSize
      (if gpuIdxForThisThread = -1 then 0 else gpuIdxForThisThread),
      by simp [createComputeHandle], rfl, rfl, rfl, rfl⟩

/-- C3 (counterexample): called with the non-empty `expectedSha256` "0f3a", `loadModelFile`
raises the StringError whose message is "Checking sha256 for PyTorch models is not yet
implemented." followed by a line feed, which is not the StringError with the message as the
claim quotes it, without the line feed. -/
theorem loadModelFile_message_ends_in_line_feed :
    (loadModelFile sampleJitLoad "model.pt" "0f3a" []).result
      = .error (.stringError "Checking sha256 for PyTorch models is not yet implemented.\n")
    ∧ (loadModelFile sampleJitLoad "model.pt" "0f3a" []).result
      ≠ .error (.stringError "Checking sha256 for PyTorch models is not yet implemented.") := by
  have h : (loadModelFile sampleJitLoad "model.pt" "0f3a" []).result
      = .error (.stringError "Checking sha256 for PyTorch models is not yet implemented.\n") := by
    rfl
  refine ⟨h, ?_⟩
  rw [h]
  intro hne
  have hmsg := Err.stringError.inj (Except.error.inj hne)
  exact absurd hmsg (by decide)

/-- C3 (amended): `loadModelFile` raises a StringError exactly when `expectedSha256` is
non-empty.  In that case the message is "Checking sha256 for PyTorch models is not yet
implemented." followed by a line feed, and `torch::jit::load` has not been called: the
list of load calls is the one `loadModelFile` started with.  With the empty
`expectedSha256` the guard does not raise, `torch::jit::load` is called once, on the given
file name, and the outcome is what that call yields: the loaded model holding the module
it returns, or the library error it throws. -/
theorem loadModelFile_raises_iff_sha256_given (jitLoad : String → Except String Module)
    (file expectedSha256 : String) (loadCalls : List String) :
    ((∃ msg, (loadModelFile jitLoad file expectedSha256 loadCalls).result
          = .error (.stringError msg)) ↔ expectedSha256 ≠ "")
    ∧ (expectedSha256 ≠ "" →
        (loadModelFile jitLoad file expectedSha256 loadCalls).result
          = .error (.stringError "Checking sha256 for PyTorch models is not yet implemented.\n")
        ∧ (loadModelFile jitLoad file expectedSha256 loadCalls).loadCalls = loadCalls)
    ∧ (expectedSha256 = "" →
        (loadModelFile jitLoad file expectedSha256 loadCalls).loadCalls = loadCalls ++ [file]
        ∧ (∀ m, jitLoad file = .ok m →
            (loadModelFile jitLoad file expectedSha256 loadCalls).result = .ok { model := m })
        ∧ (∀ what, jitLoad file = .error what →
            (loadModelFile jitLoad file expectedSha256 loadCalls).result
              = .error (.torchError what))) := by
  by_cases h : expectedSha256 = ""
  · subst h
    have hdef : loadModelFile jitLoad file "" loadCalls
        = LoadedModel.fromFile jitLoad file loadCalls := by
      simp [loadModelFile]
    have hcalls : (loadModelFile jitLoad file "" loadCalls).loadCalls = loadCalls ++ [file] := by
      rw [hdef]
      unfold LoadedModel.fromFile torchJitLoad
      cases jitLoad file <;> rfl
    have hok : ∀ m, jitLoad file = .ok m →
        (loadModelFile jitLoad file "" loadCalls).result = .ok { model := m } := by
      intro m hm
      rw [hdef]
      unfold LoadedModel.fromFile torchJitLoad
      rw [hm]
    have herr : ∀ what, jitLoad file = .error what →
        (loadModelFile jitLoad file "" loadCalls).result = .error (.torchError what) := by
      intro what hw
      rw [hdef]
      unfold LoadedModel.fromFile torchJitLoad
      rw [hw]
    refine ⟨?_, fun hne => absurd rfl hne, fun _ => ⟨hcalls, hok, herr⟩⟩
    constructor
    · rintro ⟨msg, hmsg⟩
      cases hj : jitLoad file with
      | ok m =>
        rw [hok m hj] at hmsg
        cases hmsg
      | error what =>
        rw [herr what hj] at hmsg
        cases hmsg
    · intro hne
      exact absurd rfl hne
  · have hlen : expectedSha256.length ≠ 0 := fun hl => h ((string_length_eq_zero_iff _).mp hl)
    have hres : (loadModelFile jitLoad file expectedSha256 loadCalls).result
        = .error (.stringError "Checking sha256 for PyTorch models is not yet implemented.\n")
        ∧ (loadModelFile jitLoad file expectedSha256 loadCalls).loadCalls = loadCalls := by
      simp [loadModelFile, hlen]
    exact ⟨⟨fun _ => h, fun _ => ⟨_, hres.1⟩⟩, fun _ => hres, fun he => absurd he h⟩

theorem loadModelFile_raises_iff_sha256_given_witness :
    ("0f3a" ≠ "" ∧
      (loadModelFile sampleJitLoad "model.pt" "0f3a" []).result
        = .error (.stringError "Checking sha256 for PyTorch models is not yet implemented.\n")
      ∧ (loadModelFile sampleJitLoad "model.pt" "0f3a" []).loadCalls = [])
    ∧ (sampleJitLoad "model.pt" = .ok { forward := sampleForward }
      ∧ (loadModelFile sampleJitLoad "model.pt" "" []).loadCalls = ["model.pt"]
      ∧ (loadModelFile sampleJitLoad "model.pt" "" []).result
        = .ok { model := { forward := sampleForward } }) :=
  ⟨⟨by decide,
      (loadModelFile_raises_iff_sha256_given sampleJitLoad "model.pt" "0f3a" []).2.1
        (by decide)⟩,
    ⟨rfl,
      ((loadModelFile_raises_iff_sha256_given sampleJitLoad "model.pt" "" []).2.2 rfl).1,
      ((loadModelFile_raises_iff_sha256_given sampleJitLoad "model.pt" "" []).2.2 rfl).2.1
        { forward := sampleForward } rfl⟩⟩

/-! ## Batches, rows and the fields of an output -/

/-- C4: the two assertions of `getOutput` hold (it returns instead of aborting) exactly when
`1 <= numBatchEltsFilled <= gpuHandle->maxBatchSize`; under that precondition it returns,
every row `0 <= r < numBatchEltsFilled` has `outputs[r]` written by the loop body of that
row, and every output with another index is left as it was. -/
theorem getOutput_accepts_batches_up_to_max (E : Externals) (gpuHandle : ComputeHandle)
    (inputBuffers : InputBuffers) (n : Int) (inputBufs : Int → NNResultBuf)
    (outputs : Int → NNOutput) (tmp0 : Buf) :
    ((∃ res, getOutput E gpuHandle inputBuffers n inputBufs outputs tmp0 = .ok res)
        ↔ (1 ≤ n ∧ n ≤ gpuHandle.maxBatchSize))
    ∧ ((∃ expr, getOutput E gpuHandle inputBuffers n inputBufs outputs tmp0
          = .error (.assertFailed expr)) ↔ ¬ (1 ≤ n ∧ n ≤ gpuHandle.maxBatchSize))
    ∧ (1 ≤ n → n ≤ gpuHandle.maxBatchSize →
        ∃ res, getOutput E gpuHandle inputBuffers n inputBufs outputs tmp0 = .ok res
          ∧ (∀ r, r ∈ rowIndices n ↔ (0 ≤ r ∧ r < n))
          ∧ (∀ r, 0 ≤ r → r < n →
              ∃ tmp, res.outputs r =
                outputRow E gpuHandle.nnXLen gpuHandle.nnYLen inputBufs
                  (modelOutputOf E gpuHandle inputBuffers n inputBufs) tmp (outputs r) r)
          ∧ (∀ k, k < 0 ∨ n ≤ k → res.outputs k = outputs k)) := by
  have hpos : 1 ≤ n → n ≤ gpuHandle.maxBatchSize →
      ∃ res, getOutput E gpuHandle inputBuffers n inputBufs outputs tmp0 = .ok res
        ∧ (∀ r, r ∈ rowIndices n ↔ (0 ≤ r ∧ r < n))
        ∧ (∀ r, 0 ≤ r → r < n →
            ∃ tmp, res.outputs r =
              outputRow E gpuHandle.nnXLen gpuHandle.nnYLen inputBufs
                (modelOutputOf E gpuHandle inputBuffers n inputBufs) tmp (outputs r) r)
        ∧ (∀ k, k < 0 ∨ n ≤ k → res.outputs k = outputs k) := by
    intro h1 h2
    refine ⟨_, getOutput_eq_ok E gpuHandle inputBuffers n inputBufs outputs tmp0 h1 h2,
      fun r => mem_loopIndices n r, ?_, ?_⟩
    · intro r hr0 hr
      obtain ⟨tmpBefore, hrow⟩ :=
        writeOutputs_row E gpuHandle.nnXLen gpuHandle.nnYLen inputBufs
          (modelOutputOf E gpuHandle inputBuffers n inputBufs) n tmp0 outputs r hr0 hr
      exact ⟨_, hrow⟩
    · intro k hk
      exact writeOutputs_outside E gpuHandle.nnXLen gpuHandle.nnYLen inputBufs _ n tmp0
        outputs k hk
  by_cases hn : 1 ≤ n ∧ n ≤ gpuHandle.maxBatchSize
  · obtain ⟨res, hres, -⟩ := hpos hn.1 hn.2
    refine ⟨⟨fun _ => hn, fun _ => ⟨res, hres⟩⟩, ?_, hpos⟩
    constructor
    · rintro ⟨expr, hexpr⟩
      rw [hres] at hexpr
      cases hexpr
    · intro h
      exact absurd hn h
  · have herr : ∃ expr, getOutput E gpuHandle inputBuffers n inputBufs outputs tmp0
        = .error (.assertFailed expr) := by
      by_cases h2 : n ≤ gpuHandle.maxBatchSize
      · have h3 : ¬ n > 0 := by
          intro h3
          exact hn ⟨by omega, h2⟩
        exact ⟨"batchSize > 0", by simp only [getOutput, h2, h3, not_true_eq_false,
          not_false_eq_true, if_true, if_false]⟩
      · exact ⟨"batchSize <= gpuHandle->maxBatchSize",
          by simp only [getOutput, h2, not_false_eq_true, if_true]⟩
    refine ⟨⟨?_, fun h => absurd h hn⟩, ⟨fun _ => hn, fun _ => herr⟩, hpos⟩
    rintro ⟨res, hres⟩
    obtain ⟨expr, hexpr⟩ := herr
    rw [hres] at hexpr
    cases hexpr

theorem getOutput_accepts_batches_up_to_max_witness :
    (1 : Int) ≤ 2 ∧ (2 : Int) ≤ sampleHandle.maxBatchSize
    ∧ ∃ res, getOutput sampleExternals sampleHandle sampleInputBuffers 2 sampleInputBufs
          sampleOutputs sampleTmp = .ok res
        ∧ (∀ r, r ∈ rowIndices 2 ↔ (0 ≤ r ∧ r < 2))
        ∧ (∀ r, 0 ≤ r → r < 2 →
            ∃ tmp, res.outputs r =
              outputRow sampleExternals sampleHandle.nnXLen sampleHandle.nnYLen sampleInputBufs
                (modelOutputOf sampleExternals sampleHandle sampleInputBuffers 2 sampleInputBufs)
                tmp (sampleOutputs r) r)
        ∧ (∀ k, k < 0 ∨ 2 ≤ k → res.outputs k = sampleOutputs k) :=
  ⟨by decide, by decide,
    (getOutput_accepts_batches_up_to_max sampleExternals sampleHandle sampleInputBuffers 2
      sampleInputBufs sampleOutputs sampleTmp).2.2 (by decide) (by decide)⟩

/-- C5: for every row `r` of an accepted batch, the buffer `policyProbsTmp` from which
`outputs[r]->policyProbs` is produced holds, at every index `0 <= i <= nnXLen*nnYLen` (board
cells and pass), the value `p_i + (q_i - p_i) * w` with `p` channel 0 and `q` channel 5 of
row `r` of the policy output and `w` the row's `policyOptimism`; this value is `p_i` when
`w = 0`, is `q_i` when `w = 1`, and lies between `p_i` and `q_i` when `0 <= w <= 1`. -/
theorem getOutput_policy_blend (E : Externals) (gpuHandle : ComputeHandle)
    (inputBuffers : InputBuffers) (n : Int) (inputBufs : Int → NNResultBuf)
    (outputs : Int → NNOutput) (tmp0 : Buf) (r : Int)
    (h1 : 1 ≤ n) (h2 : n ≤ gpuHandle.maxBatchSize) (hr0 : 0 ≤ r) (hr : r < n) :
    ∃ res tmp,
      getOutput E gpuHandle inputBuffers n inputBufs outputs tmp0 = .ok res
      ∧ (res.outputs r).policyProbs =
          Function.update
            (E.copyOutputsWithSymmetry tmp (outputs r).policyProbs 1 gpuHandle.nnYLen
              gpuHandle.nnXLen (inputBufs r).symmetry)
            (gpuHandle.nnYLen * gpuHandle.nnXLen) (tmp (gpuHandle.nnYLen * gpuHandle.nnXLen))
      ∧ ∀ i, 0 ≤ i → i ≤ gpuHandle.nnXLen * gpuHandle.nnYLen →
          tmp i = rawPolicyOf E gpuHandle inputBuffers n inputBufs r i
                  + (optimisticPolicyOf E gpuHandle inputBuffers n inputBufs r i
                      - rawPolicyOf E gpuHandle inputBuffers n inputBufs r i)
                    * (inputBufs r).policyOptimism
          ∧ ((inputBufs r).policyOptimism = 0 →
              tmp i = rawPolicyOf E gpuHandle inputBuffers n inputBufs r i)
          ∧ ((inputBufs r).policyOptimism = 1 →
              tmp i = optimisticPolicyOf E gpuHandle inputBuffers n inputBufs r i)
          ∧ (0 ≤ (inputBufs r).policyOptimism → (inputBufs r).policyOptimism ≤ 1 →
              min (rawPolicyOf E gpuHandle inputBuffers n inputBufs r i)
                  (optimisticPolicyOf E gpuHandle inputBuffers n inputBufs r i) ≤ tmp i
              ∧ tmp i ≤ max (rawPolicyOf E gpuHandle inputBuffers n inputBufs r i)
                  (optimisticPolicyOf E gpuHandle inputBuffers n inputBufs r i)) := by
  obtain ⟨res, tmp, hres, -, hrow, htmp⟩ :=
    getOutput_row E gpuHandle inputBuffers n inputBufs outputs tmp0 h1 h2 r hr0 hr
  refine ⟨res, tmp, hres, ?_, ?_⟩
  · rw [hrow]
    rfl
  · intro i hi0 hi
    have hi2 : i < gpuHandle.nnYLen * gpuHandle.nnXLen + 1 := by
      rw [mul_comm]
      omega
    have hb := htmp i hi0 hi2
    unfold rawPolicyOf optimisticPolicyOf
    refine ⟨hb, ?_, ?_, ?_⟩
    · intro hw
      rw [hb, hw, blendPolicy_zero]
    · intro hw
      rw [hb, hw, blendPolicy_one]
    · intro hw0 hw1
      rw [hb]
      exact blendPolicy_between _ _ _ hw0 hw1

theorem getOutput_policy_blend_witness :
    (1 : Int) ≤ 2 ∧ (2 : Int) ≤ sampleHandle.maxBatchSize ∧ (0 : Int) ≤ 1 ∧ (1 : Int) < 2
    ∧ ∃ res tmp,
      getOutput sampleExternals sampleHandle sampleInputBuffers 2 sampleInputBufs sampleOutputs
          sampleTmp = .ok res
      ∧ (res.outputs 1).policyProbs =
          Function.update
            (sampleExternals.copyOutputsWithSymmetry tmp (sampleOutputs 1).policyProbs 1
              sampleHandle.nnYLen sampleHandle.nnXLen (sampleInputBufs 1).symmetry)
            (sampleHandle.nnYLen * sampleHandle.nnXLen)
            (tmp (sampleHandle.nnYLen * sampleHandle.nnXLen))
      ∧ ∀ i, 0 ≤ i → i ≤ sampleHandle.nnXLen * sampleHandle.nnYLen →
          tmp i = rawPolicyOf sampleExternals sampleHandle sampleInputBuffers 2 sampleInputBufs 1 i
                  + (optimisticPolicyOf sampleExternals sampleHandle sampleInputBuffers 2
                        sampleInputBufs 1 i
                      - rawPolicyOf sampleExternals sampleHandle sampleInputBuffers 2
                        sampleInputBufs 1 i)
                    * (sampleInputBufs 1).policyOptimism
          ∧ ((sampleInputBufs 1).policyOptimism = 0 →
              tmp i = rawPolicyOf sampleExternals sampleHandle sampleInputBuffers 2
                sampleInputBufs 1 i)
          ∧ ((sampleInputBufs 1).policyOptimism = 1 →
              tmp i = optimisticPolicyOf sampleExternals sampleHandle sampleInputBuffers 2
                sampleInputBufs 1 i)
          ∧ (0 ≤ (sampleInputBufs 1).policyOptimism → (sampleInputBufs 1).policyOptimism ≤ 1 →
              min (rawPolicyOf sampleExternals sampleHandle sampleInputBuffers 2 sampleInputBufs 1 i)
                  (optimisticPolicyOf sampleExternals sampleHandle sampleInputBuffers 2
                    sampleInputBufs 1 i) ≤ tmp i
              ∧ tmp i ≤
                max (rawPolicyOf sampleExternals sampleHandle sampleInputBuffers 2 sampleInputBufs 1 i)
                  (optimisticPolicyOf sampleExternals sampleHandle sampleInputBuffers 2
                    sampleInputBufs 1 i)) :=
  ⟨by decide, by decide, by decide, by decide,
    getOutput_policy_blend sampleExternals sampleHandle sampleInputBuffers 2 sampleInputBufs
      sampleOutputs sampleTmp 1 (by decide) (by decide) (by decide) (by decide)⟩

/-- C7: for every row `r` of an accepted batch, `outputs[r]` receives `whiteWinProb`,
`whiteLossProb`, `whiteNoResultProb` from entries 0, 1, 2 of row `r` of the value tensor,
`whiteScoreMean`, `whiteScoreMeanSq`, `whiteLead`, `varTimeLeft` from entries 0, 1, 2, 3 of
row `r` of the misc-value tensor, and `shorttermWinlossError`, `shorttermScoreError` from
entries 0, 1 of row `r` of the more-misc-value tensor. -/
theorem getOutput_value_fields_from_own_row (E : Externals) (gpuHandle : ComputeHandle)
    (inputBuffers : InputBuffers) (n : Int) (inputBufs : Int → NNResultBuf)
    (outputs : Int → NNOutput) (tmp0 : Buf) (r : Int)
    (h1 : 1 ≤ n) (h2 : n ≤ gpuHandle.maxBatchSize) (hr0 : 0 ≤ r) (hr : r < n) :
    ∃ res,
      getOutput E gpuHandle inputBuffers n inputBufs outputs tmp0 = .ok res
      ∧ (res.outputs r).whiteWinProb
          = (modelOutputOf E gpuHandle inputBuffers n inputBufs).valueOutputs r 0
      ∧ (res.outputs r).whiteLossProb
          = (modelOutputOf E gpuHandle inputBuffers n inputBufs).valueOutputs r 1
      ∧ (res.outputs r).whiteNoResultProb
          = (modelOutputOf E gpuHandle inputBuffers n inputBufs).valueOutputs r 2
      ∧ (res.outputs r).whiteScoreMean
          = (modelOutputOf E gpuHandle inputBuffers n inputBufs).miscValueOutputs r 0
      ∧ (res.outputs r).whiteScoreMeanSq
          = (modelOutputOf E gpuHandle inputBuffers n inputBufs).miscValueOutputs r 1
      ∧ (res.outputs r).whiteLead
          = (modelOutputOf E gpuHandle inputBuffers n inputBufs).miscValueOutputs r 2
      ∧ (res.outputs r).varTimeLeft
          = (modelOutputOf E gpuHandle inputBuffers n inputBufs).miscValueOutputs r 3
      ∧ (res.outputs r).shorttermWinlossError
          = (modelOutputOf E gpuHandle inputBuffers n inputBufs).moreMiscValueOutputs r 0
      ∧ (res.outputs r).shorttermScoreError
          = (modelOutputOf E gpuHandle inputBuffers n inputBufs).moreMiscValueOutputs r 1 := by
  obtain ⟨res, tmp, hres, -, hrow, -⟩ :=
    getOutput_row E gpuHandle inputBuffers n inputBufs outputs tmp0 h1 h2 r hr0 hr
  refine ⟨res, hres, ?_⟩
  rw [hrow]
  exact ⟨rfl, rfl, rfl, rfl, rfl, rfl, rfl, rfl, rfl⟩

/-- C10: for every row `r` of an accepted batch over a board with non-negative lengths, and
every symmetry tag of the row, the entry `outputs[r]->policyProbs[nnXLen*nnYLen]` after
`getOutput` is `p + (q - p) * policyOptimism`, with `p` and `q` the entries of index
`nnXLen*nnYLen` of channels 0 and 5 of row `r` of the policy output. -/
theorem getOutput_pass_entry (E : Externals) (gpuHandle : ComputeHandle)
    (inputBuffers : InputBuffers) (n : Int) (inputBufs : Int → NNResultBuf)
    (outputs : Int → NNOutput) (tmp0 : Buf) (r : Int)
    (h1 : 1 ≤ n) (h2 : n ≤ gpuHandle.maxBatchSize) (hr0 : 0 ≤ r) (hr : r < n)
    (hX : 0 ≤ gpuHandle.nnXLen) (hY : 0 ≤ gpuHandle.nnYLen) :
    ∃ res,
      getOutput E gpuHandle inputBuffers n inputBufs outputs tmp0 = .ok res
      ∧ (res.outputs r).policyProbs (gpuHandle.nnXLen * gpuHandle.nnYLen) =
          rawPolicyOf E gpuHandle inputBuffers n inputBufs r (gpuHandle.nnXLen * gpuHandle.nnYLen)
          + (optimisticPolicyOf E gpuHandle inputBuffers n inputBufs r
                (gpuHandle.nnXLen * gpuHandle.nnYLen)
              - rawPolicyOf E gpuHandle inputBuffers n inputBufs r
                (gpuHandle.nnXLen * gpuHandle.nnYLen))
            * (inputBufs r).policyOptimism := by
  obtain ⟨res, tmp, hres, -, hrow, htmp⟩ :=
    getOutput_row E gpuHandle inputBuffers n inputBufs outputs tmp0 h1 h2 r hr0 hr
  refine ⟨res, hres, ?_⟩
  have hN : 0 ≤ gpuHandle.nnYLen * gpuHandle.nnXLen := mul_nonneg hY hX
  have hb := htmp (gpuHandle.nnYLen * gpuHandle.nnXLen) hN (by omega)
  rw [hrow, mul_comm gpuHandle.nnXLen gpuHandle.nnYLen]
  simp only [outputRow, Function.update_same]
  rw [hb]
  rfl

theorem getOutput_value_fields_from_own_row_witness :
    (1 : Int) ≤ 2 ∧ (2 : Int) ≤ sampleHandle.maxBatchSize ∧ (0 : Int) ≤ 1 ∧ (1 : Int) < 2
    ∧ ∃ res,
      getOutput sampleExternals sampleHandle sampleInputBuffers 2 sampleInputBufs sampleOutputs
          sampleTmp = .ok res
      ∧ (res.outputs 1).whiteWinProb
          = (modelOutputOf sampleExternals sampleHandle sampleInputBuffers 2
              sampleInputBufs).valueOutputs 1 0
      ∧ (res.outputs 1).whiteLossProb
          = (modelOutputOf sampleExternals sampleHandle sampleInputBuffers 2
              sampleInputBufs).valueOutputs 1 1
      ∧ (res.outputs 1).whiteNoResultProb
          = (modelOutputOf sampleExternals sampleHandle sampleInputBuffers 2
              sampleInputBufs).valueOutputs 1 2
      ∧ (res.outputs 1).whiteScoreMean
          = (modelOutputOf sampleExternals sampleHandle sampleInputBuffers 2
              sampleInputBufs).miscValueOutputs 1 0
      ∧ (res.outputs 1).whiteScoreMeanSq
          = (modelOutputOf sampleExternals sampleHandle sampleInputBuffers 2
              sampleInputBufs).miscValueOutputs 1 1
      ∧ (res.outputs 1).whiteLead
          = (modelOutputOf sampleExternals sampleHandle sampleInputBuffers 2
              sampleInputBufs).miscValueOutputs 1 2
      ∧ (res.outputs 1).varTimeLeft
          = (modelOutputOf sampleExternals sampleHandle sampleInputBuffers 2
              sampleInputBufs).miscValueOutputs 1 3
      ∧ (res.outputs 1).shorttermWinlossError
          = (modelOutputOf sampleExternals sampleHandle sampleInputBuffers 2
              sampleInputBufs).moreMiscValueOutputs 1 0
      ∧ (res.outputs 1).shorttermScoreError
          = (modelOutputOf sampleExternals sampleHandle sampleInputBuffers 2
              sampleInputBufs).moreMiscValueOutputs 1 1 :=
  ⟨by decide, by decide, by decide, by decide,
    getOutput_value_fields_from_own_row sampleExternals sampleHandle sampleInputBuffers 2
      sampleInputBufs sampleOutputs sampleTmp 1 (by decide) (by decide) (by decide)
      (by decide)⟩

theorem getOutput_pass_entry_witness :
    (1 : Int) ≤ 2 ∧ (2 : Int) ≤ sampleHandle.maxBatchSize ∧ (0 : Int) ≤ 1 ∧ (1 : Int) < 2
    ∧ 0 ≤ sampleHandle.nnXLen ∧ 0 ≤ sampleHandle.nnYLen
    ∧ ∃ res,
      getOutput sampleExternals sampleHandle sampleInputBuffers 2 sampleInputBufs sampleOutputs
          sampleTmp = .ok res
      ∧ (res.outputs 1).policyProbs (sampleHandle.nnXLen * sampleHandle.nnYLen) =
          rawPolicyOf sampleExternals sampleHandle sampleInputBuffers 2 sampleInputBufs 1
            (sampleHandle.nnXLen * sampleHandle.nnYLen)
          + (optimisticPolicyOf sampleExternals sampleHandle sampleInputBuffers 2 sampleInputBufs 1
                (sampleHandle.nnXLen * sampleHandle.nnYLen)
              - rawPolicyOf sampleExternals sampleHandle sampleInputBuffers 2 sampleInputBufs 1
                (sampleHandle.nnXLen * sampleHandle.nnYLen))
            * (sampleInputBufs 1).policyOptimism :=
  ⟨by decide, by decide, by decide, by decide, by decide, by decide,
    getOutput_pass_entry sampleExternals sampleHandle sampleInputBuffers 2 sampleInputBufs
      sampleOutputs sampleTmp 1 (by decide) (by decide) (by decide) (by decide) (by decide)
      (by decide)⟩

/-! ## Linear and geometric interpolation of the policy -/

theorem sample_policyOutputs (n r channel i : Int) :
    (modelOutputOf sampleExternals sampleHandle sampleInputBuffers n sampleInputBufs).policyOutputs
        r channel i =
      (stagedInputs sampleExternals sampleHandle sampleInputBuffers n
          sampleInputBufs).hostSpatialInputs.row r i + (if channel = 5 then 3 else 0) := by
  unfold modelOutputOf
  rw [stagedInputs_modelInputs]
  rfl

theorem sample_staged_spatial (n r i : Int) (hr0 : 0 ≤ r) (hr : r < n) :
    (stagedInputs sampleExternals sampleHandle sampleInputBuffers n
        sampleInputBufs).hostSpatialInputs.row r i =
      sampleCopyInputs (sampleInputBufs r).rowSpatial (fun _ => 0) 1 19 19 22 false (r + 3) i := by
  rw [stagedInputs_spatial_row, if_pos ⟨hr0, hr⟩]
  rfl

theorem sample_pass_values :
    rawPolicyOf sampleExternals sampleHandle sampleInputBuffers 2 sampleInputBufs 1 361 = 1
    ∧ optimisticPolicyOf sampleExternals sampleHandle sampleInputBuffers 2 sampleInputBufs 1 361
        = 4 := by
  unfold rawPolicyOf optimisticPolicyOf
  rw [sample_policyOutputs, sample_policyOutputs,
    sample_staged_spatial 2 1 361 (by decide) (by decide)]
  simp only [sampleCopyInputs, sampleCellMap, sampleInputBufs]
  norm_num

theorem four_rpow_half : (4 : ℝ) ^ ((1 : ℝ) / 2) = 2 := by
  have h4 : (4 : ℝ) = 2 ^ (2 : ℝ) := by norm_num
  rw [h4, ← Real.rpow_mul (by norm_num : (0 : ℝ) ≤ 2)]
  norm_num

theorem exp_blendPolicy (p q w : ℚ) :
    Real.exp ((blendPolicy p q w : ℚ) : ℝ)
      = Real.exp (p : ℝ) ^ ((1 : ℝ) - (w : ℝ)) * Real.exp (q : ℝ) ^ (w : ℝ) := by
  rw [← Real.exp_mul, ← Real.exp_mul, ← Real.exp_add]
  congr 1
  unfold blendPolicy
  push_cast
  ring

theorem geometric_le_blendPolicy (p q w : ℚ) (hp : 0 < p) (hq : 0 < q) (h0 : 0 ≤ w)
    (h1 : w ≤ 1) :
    (p : ℝ) ^ ((1 : ℝ) - (w : ℝ)) * (q : ℝ) ^ (w : ℝ) ≤ ((blendPolicy p q w : ℚ) : ℝ) := by
  have hw0 : (0 : ℝ) ≤ (w : ℝ) := by exact_mod_cast h0
  have hw1 : (w : ℝ) ≤ 1 := by exact_mod_cast h1
  have hp0 : (0 : ℝ) ≤ (p : ℝ) := by exact_mod_cast hp.le
  have hq0 : (0 : ℝ) ≤ (q : ℝ) := by exact_mod_cast hq.le
  have h := Real.geom_mean_le_arith_mean2_weighted (sub_nonneg.mpr hw1) hw0 hp0 hq0 (by ring)
  refine h.trans (le_of_eq ?_)
  unfold blendPolicy
  push_cast
  ring

/-- C6 (counterexample): on the sample batch of two rows, the pass entry (index 361) of row 1
has raw value `p = 1`, optimistic value `q = 4` and `policyOptimism = 1/2`; `getOutput`
computes `5/2` for it, which is not `p^(1-w) * q^w = 2`.  All the numbers involved are
binary fractions, so no operation of line 191 rounds at this input. -/
theorem getOutput_policy_not_geometric :
    ∃ res,
      getOutput sampleExternals sampleHandle sampleInputBuffers 2 sampleInputBufs sampleOutputs
          sampleTmp = .ok res
      ∧ 0 < rawPolicyOf sampleExternals sampleHandle sampleInputBuffers 2 sampleInputBufs 1 361
      ∧ 0 < optimisticPolicyOf sampleExternals sampleHandle sampleInputBuffers 2 sampleInputBufs
              1 361
      ∧ 0 ≤ (sampleInputBufs 1).policyOptimism ∧ (sampleInputBufs 1).policyOptimism ≤ 1
      ∧ (res.outputs 1).policyProbs 361 = 5 / 2
      ∧ (((res.outputs 1).policyProbs 361 : ℚ) : ℝ) ≠
          ((rawPolicyOf sampleExternals sampleHandle sampleInputBuffers 2 sampleInputBufs 1 361 : ℚ)
              : ℝ) ^ ((1 : ℝ) - (((sampleInputBufs 1).policyOptimism : ℚ) : ℝ))
            * ((optimisticPolicyOf sampleExternals sampleHandle sampleInputBuffers 2
                sampleInputBufs 1 361 : ℚ) : ℝ) ^ (((sampleInputBufs 1).policyOptimism : ℚ) : ℝ) := by
  obtain ⟨res, tmp, hres, -, hrow, htmp⟩ :=
    getOutput_row sampleExternals sampleHandle sampleInputBuffers 2 sampleInputBufs
      sampleOutputs sampleTmp (by decide) (by decide) 1 (by decide) (by decide)
  obtain ⟨hp, hq⟩ := sample_pass_values
  have hw : (sampleInputBufs 1).policyOptimism = 1 / 2 := by
    simp [sampleInputBufs]
  have hval : (res.outputs 1).policyProbs 361 = 5 / 2 := by
    have hb := htmp 361 (by decide) (by decide)
    unfold rawPolicyOf at hp
    unfold optimisticPolicyOf at hq
    rw [hp, hq, hw] at hb
    rw [hrow]
    have hidx : sampleHandle.nnYLen * sampleHandle.nnXLen = 361 := by decide
    simp only [outputRow, hidx, Function.update_same]
    rw [hb]
    norm_num [blendPolicy]
  refine ⟨res, hres, ?_, ?_, ?_, ?_, hval, ?_⟩
  · rw [hp]; norm_num
  · rw [hq]; norm_num
  · rw [hw]; norm_num
  · rw [hw]; norm_num
  · rw [hval, hp, hq, hw]
    have h2 : (((1 : ℚ) / 2 : ℚ) : ℝ) = (1 : ℝ) / 2 := by norm_num
    have h3 : (1 : ℝ) - 1 / 2 = 1 / 2 := by norm_num
    have h4 : ((4 : ℚ) : ℝ) = 4 := by norm_num
    have h1 : ((1 : ℚ) : ℝ) = 1 := by norm_num
    rw [h2, h3, h4, h1, Real.one_rpow, four_rpow_half]
    norm_num

/-- C6 (amended), in exact arithmetic, that is with the `float` operations of source line
191 taken without rounding: for every row `r` of an accepted batch, every policy entry
`0 <= i <= nnXLen*nnYLen` with raw value `p > 0` and optimistic value `q > 0`, and every
`policyOptimism` `w` in `[0,1]`, the value `getOutput` computes for that entry is the linear
interpolation `(1-w)*p + w*q`; it is at least `p^(1-w) * q^w`, and its exponential is
`exp(p)^(1-w) * exp(q)^w`: the interpolation is geometric for the exponentials of the two
outputs, not for the outputs themselves. -/
theorem getOutput_policy_linear_interpolation (E : Externals) (gpuHandle : ComputeHandle)
    (inputBuffers : InputBuffers) (n : Int) (inputBufs : Int → NNResultBuf)
    (outputs : Int → NNOutput) (tmp0 : Buf) (r : Int)
    (h1 : 1 ≤ n) (h2 : n ≤ gpuHandle.maxBatchSize) (hr0 : 0 ≤ r) (hr : r < n) :
    ∃ res tmp,
      getOutput E gpuHandle inputBuffers n inputBufs outputs tmp0 = .ok res
      ∧ (res.outputs r).policyProbs =
          Function.update
            (E.copyOutputsWithSymmetry tmp (outputs r).policyProbs 1 gpuHandle.nnYLen
              gpuHandle.nnXLen (inputBufs r).symmetry)
            (gpuHandle.nnYLen * gpuHandle.nnXLen) (tmp (gpuHandle.nnYLen * gpuHandle.nnXLen))
      ∧ ∀ i, 0 ≤ i → i ≤ gpuHandle.nnXLen * gpuHandle.nnYLen →
          0 < rawPolicyOf E gpuHandle inputBuffers n inputBufs r i →
          0 < optimisticPolicyOf E gpuHandle inputBuffers n inputBufs r i →
          0 ≤ (inputBufs r).policyOptimism → (inputBufs r).policyOptimism ≤ 1 →
            tmp i = (1 - (inputBufs r).policyOptimism)
                      * rawPolicyOf E gpuHandle inputBuffers n inputBufs r i
                    + (inputBufs r).policyOptimism
                      * optimisticPolicyOf E gpuHandle inputBuffers n inputBufs r i
            ∧ ((rawPolicyOf E gpuHandle inputBuffers n inputBufs r i : ℚ) : ℝ)
                    ^ ((1 : ℝ) - (((inputBufs r).policyOptimism : ℚ) : ℝ))
                  * ((optimisticPolicyOf E gpuHandle inputBuffers n inputBufs r i : ℚ) : ℝ)
                    ^ (((inputBufs r).policyOptimism : ℚ) : ℝ)
                ≤ ((tmp i : ℚ) : ℝ)
            ∧ Real.exp ((tmp i : ℚ) : ℝ) =
                Real.exp ((rawPolicyOf E gpuHandle inputBuffers n inputBufs r i : ℚ) : ℝ)
                    ^ ((1 : ℝ) - (((inputBufs r).policyOptimism : ℚ) : ℝ))
                  * Real.exp ((optimisticPolicyOf E gpuHandle inputBuffers n inputBufs r i : ℚ) : ℝ)
                    ^ (((inputBufs r).policyOptimism : ℚ) : ℝ) := by
  obtain ⟨res, tmp, hres, -, hrow, htmp⟩ :=
    getOutput_row E gpuHandle inputBuffers n inputBufs outputs tmp0 h1 h2 r hr0 hr
  refine ⟨res, tmp, hres, ?_, ?_⟩
  · rw [hrow]
    rfl
  · intro i hi0 hi hp hq hw0 hw1
    have hi2 : i < gpuHandle.nnYLen * gpuHandle.nnXLen + 1 := by
      rw [mul_comm]
      omega
    have hb := htmp i hi0 hi2
    unfold rawPolicyOf optimisticPolicyOf at *
    rw [hb]
    refine ⟨?_, geometric_le_blendPolicy _ _ _ hp hq hw0 hw1, exp_blendPolicy _ _ _⟩
    unfold blendPolicy
    ring

theorem getOutput_policy_linear_interpolation_witness :
    (1 : Int) ≤ 2 ∧ (2 : Int) ≤ sampleHandle.maxBatchSize ∧ (0 : Int) ≤ 1 ∧ (1 : Int) < 2
    ∧ ∃ res tmp,
      getOutput sampleExternals sampleHandle sampleInputBuffers 2 sampleInputBufs sampleOutputs
          sampleTmp = .ok res
      ∧ (res.outputs 1).policyProbs =
          Function.update
            (sampleExternals.copyOutputsWithSymmetry tmp (sampleOutputs 1).policyProbs 1
              sampleHandle.nnYLen sampleHandle.nnXLen (sampleInputBufs 1).symmetry)
            (sampleHandle.nnYLen * sampleHandle.nnXLen)
            (tmp (sampleHandle.nnYLen * sampleHandle.nnXLen))
      ∧ ∀ i, 0 ≤ i → i ≤ sampleHandle.nnXLen * sampleHandle.nnYLen →
          0 < rawPolicyOf sampleExternals sampleHandle sampleInputBuffers 2 sampleInputBufs 1 i →
          0 < optimisticPolicyOf sampleExternals sampleHandle sampleInputBuffers 2 sampleInputBufs
                1 i →
          0 ≤ (sampleInputBufs 1).policyOptimism → (sampleInputBufs 1).policyOptimism ≤ 1 →
            tmp i = (1 - (sampleInputBufs 1).policyOptimism)
                      * rawPolicyOf sampleExternals sampleHandle sampleInputBuffers 2
                          sampleInputBufs 1 i
                    + (sampleInputBufs 1).policyOptimism
                      * optimisticPolicyOf sampleExternals sampleHandle sampleInputBuffers 2
                          sampleInputBufs 1 i
            ∧ ((rawPolicyOf sampleExternals sampleHandle sampleInputBuffers 2 sampleInputBufs 1 i
                      : ℚ) : ℝ)
                    ^ ((1 : ℝ) - (((sampleInputBufs 1).policyOptimism : ℚ) : ℝ))
                  * ((optimisticPolicyOf sampleExternals sampleHandle sampleInputBuffers 2
                      sampleInputBufs 1 i : ℚ) : ℝ)
                    ^ (((sampleInputBufs 1).policyOptimism : ℚ) : ℝ)
                ≤ ((tmp i : ℚ) : ℝ)
            ∧ Real.exp ((tmp i : ℚ) : ℝ) =
                Real.exp ((rawPolicyOf sampleExternals sampleHandle sampleInputBuffers 2
                      sampleInputBufs 1 i : ℚ) : ℝ)
                    ^ ((1 : ℝ) - (((sampleInputBufs 1).policyOptimism : ℚ) : ℝ))
                  * Real.exp ((optimisticPolicyOf sampleExternals sampleHandle sampleInputBuffers 2
                      sampleInputBufs 1 i : ℚ) : ℝ)
                    ^ (((sampleInputBufs 1).policyOptimism : ℚ) : ℝ) :=
  ⟨by decide, by decide, by decide, by decide,
    getOutput_policy_linear_interpolation sampleExternals sampleHandle sampleInputBuffers 2
      sampleInputBufs sampleOutputs sampleTmp 1 (by decide) (by decide) (by decide)
      (by decide)⟩

/-! ## The optional ownership map -/

theorem foldl_writeOutputRow_rel (E : Externals) (nnXLen nnYLen : Int)
    (inputBufs : Int → NNResultBuf) (mo : ModelOutput)
    (R : Int → NNOutput → NNOutput → Prop)
    (hR : ∀ k tmp o o2, R k o o2 →
      R k (outputRow E nnXLen nnYLen inputBufs mo tmp o k)
        (outputRow E nnXLen nnYLen inputBufs mo tmp o2 k))
    (l : List Int) (st st2 : OutputState) (htmp : st.policyProbsTmp = st2.policyProbsTmp)
    (hout : ∀ k, R k (st.outputs k) (st2.outputs k)) :
    ∀ k, R k ((l.foldl (writeOutputRow E nnXLen nnYLen inputBufs mo) st).outputs k)
      ((l.foldl (writeOutputRow E nnXLen nnYLen inputBufs mo) st2).outputs k) := by
  induction l generalizing st st2 with
  | nil => exact hout
  | cons a l ih =>
    rw [List.foldl_cons, List.foldl_cons]
    apply ih
    · simp only [writeOutputRow, htmp]
    · intro k
      by_cases hka : k = a
      · subst hka
        simp only [writeOutputRow, Function.update_same, htmp]
        exact hR _ _ _ _ (hout k)
      · simp only [writeOutputRow, Function.update_noteq hka]
        exact hout k

theorem withoutOwnerMap_outputRow (E : Externals) (nnXLen nnYLen : Int)
    (inputBufs : Int → NNResultBuf) (mo : ModelOutput) (tmp : Buf) (o o2 : NNOutput) (k : Int)
    (h : withoutOwnerMap o = withoutOwnerMap o2) :
    withoutOwnerMap (outputRow E nnXLen nnYLen inputBufs mo tmp o k) =
      withoutOwnerMap (outputRow E nnXLen nnYLen inputBufs mo tmp o2 k) := by
  have hp : (withoutOwnerMap o).policyProbs = (withoutOwnerMap o2).policyProbs :=
    congrArg NNOutput.policyProbs h
  have hp : o.policyProbs = o2.policyProbs := hp
  simp only [withoutOwnerMap, outputRow, hp]

/-- C8: for every row `r` of an accepted batch, `outputs[r]->whiteOwnerMap` is written (with
the output copy of row `r` of the ownership tensor) if and only if the pointer is non-null;
when it is null it stays null; and replacing the pointer of row `r` by any other value, null
or not, changes nothing that `getOutput` leaves behind except that ownership map: the input
buffers, every other output, and the policy, value, score, lead and short-term-error fields
of `outputs[r]` are the same. -/
theorem getOutput_ownership_optional (E : Externals) (gpuHandle : ComputeHandle)
    (inputBuffers : InputBuffers) (n : Int) (inputBufs : Int → NNResultBuf)
    (outputs : Int → NNOutput) (tmp0 : Buf) (r : Int)
    (h1 : 1 ≤ n) (h2 : n ≤ gpuHandle.maxBatchSize) (hr0 : 0 ≤ r) (hr : r < n) :
    ∃ res,
      getOutput E gpuHandle inputBuffers n inputBufs outputs tmp0 = .ok res
      ∧ ((res.outputs r).whiteOwnerMap ≠ none ↔ (outputs r).whiteOwnerMap ≠ none)
      ∧ (∀ ownerMap, (outputs r).whiteOwnerMap = some ownerMap →
          (res.outputs r).whiteOwnerMap =
            some (E.copyOutputsWithSymmetry
              ((modelOutputOf E gpuHandle inputBuffers n inputBufs).ownershipOutputs r) ownerMap
              1 gpuHandle.nnYLen gpuHandle.nnXLen (inputBufs r).symmetry))
      ∧ ((outputs r).whiteOwnerMap = none → (res.outputs r).whiteOwnerMap = none)
      ∧ (∀ outputs2 : Int → NNOutput,
          (∀ k, k ≠ r → outputs2 k = outputs k) →
          withoutOwnerMap (outputs2 r) = withoutOwnerMap (outputs r) →
          ∃ res2,
            getOutput E gpuHandle inputBuffers n inputBufs outputs2 tmp0 = .ok res2
            ∧ res2.inputBuffers = res.inputBuffers
            ∧ (∀ k, k ≠ r → res2.outputs k = res.outputs k)
            ∧ withoutOwnerMap (res2.outputs r) = withoutOwnerMap (res.outputs r)) := by
  obtain ⟨res, tmp, hres, hbufs, hrow, -⟩ :=
    getOutput_row E gpuHandle inputBuffers n inputBufs outputs tmp0 h1 h2 r hr0 hr
  refine ⟨res, hres, ?_, ?_, ?_, ?_⟩
  · rw [hrow]
    cases hm : (outputs r).whiteOwnerMap <;> simp [outputRow, hm]
  · intro ownerMap hm
    rw [hrow]
    simp [outputRow, hm]
  · intro hm
    rw [hrow]
    simp [outputRow, hm]
  · intro outputs2 hother hsame
    have hres2 := getOutput_eq_ok E gpuHandle inputBuffers n inputBufs outputs2 tmp0 h1 h2
    have hres1 := getOutput_eq_ok E gpuHandle inputBuffers n inputBufs outputs tmp0 h1 h2
    rw [hres] at hres1
    have hres1 := Except.ok.inj hres1
    refine ⟨_, hres2, ?_, ?_⟩
    · rw [hres1]
    · have hrel :=
        foldl_writeOutputRow_rel E gpuHandle.nnXLen gpuHandle.nnYLen inputBufs
          (modelOutputOf E gpuHandle inputBuffers n inputBufs)
          (fun k o o2 => if k = r then withoutOwnerMap o = withoutOwnerMap o2 else o = o2)
          (by
            intro k tmp o o2 hk
            by_cases hkr : k = r
            · simp only [hkr, if_true] at hk ⊢
              exact withoutOwnerMap_outputRow _ _ _ _ _ _ _ _ _ hk
            · simp only [hkr, if_false] at hk ⊢
              rw [hk])
          (rowIndices n) { policyProbsTmp := tmp0, outputs := outputs2 }
          { policyProbsTmp := tmp0, outputs := outputs } rfl
          (by
            intro k
            by_cases hkr : k = r
            · simp only [hkr, if_true]
              exact hsame
            · simp only [hkr, if_false]
              exact hother k hkr)
      rw [hres1]
      constructor
      · intro k hkr
        have := hrel k
        simp only [hkr, if_false] at this
        exact this
      · have := hrel r
        simp only [if_true] at this
        exact this

theorem getOutput_ownership_optional_witness :
    (1 : Int) ≤ 2 ∧ (2 : Int) ≤ sampleHandle.maxBatchSize ∧ (0 : Int) ≤ 1 ∧ (1 : Int) < 2
    ∧ ∃ res,
      getOutput sampleExternals sampleHandle sampleInputBuffers 2 sampleInputBufs sampleOutputs
          sampleTmp = .ok res
      ∧ ((res.outputs 1).whiteOwnerMap ≠ none ↔ (sampleOutputs 1).whiteOwnerMap ≠ none)
      ∧ (∀ ownerMap, (sampleOutputs 1).whiteOwnerMap = some ownerMap →
          (res.outputs 1).whiteOwnerMap =
            some (sampleExternals.copyOutputsWithSymmetry
              ((modelOutputOf sampleExternals sampleHandle sampleInputBuffers 2
                sampleInputBufs).ownershipOutputs 1) ownerMap
              1 sampleHandle.nnYLen sampleHandle.nnXLen (sampleInputBufs 1).symmetry))
      ∧ ((sampleOutputs 1).whiteOwnerMap = none → (res.outputs 1).whiteOwnerMap = none)
      ∧ (∀ outputs2 : Int → NNOutput,
          (∀ k, k ≠ 1 → outputs2 k = sampleOutputs k) →
          withoutOwnerMap (outputs2 1) = withoutOwnerMap (sampleOutputs 1) →
          ∃ res2,
            getOutput sampleExternals sampleHandle sampleInputBuffers 2 sampleInputBufs outputs2
                sampleTmp = .ok res2
            ∧ res2.inputBuffers = res.inputBuffers
            ∧ (∀ k, k ≠ 1 → res2.outputs k = res.outputs k)
            ∧ withoutOwnerMap (res2.outputs 1) = withoutOwnerMap (res.outputs 1)) :=
  ⟨by decide, by decide, by decide, by decide,
    getOutput_ownership_optional sampleExternals sampleHandle sampleInputBuffers 2
      sampleInputBufs sampleOutputs sampleTmp 1 (by decide) (by decide) (by decide)
      (by decide)⟩

/-! ## Symmetry tags -/

theorem sample_outputCopy_inverts : OutputCopyInvertsInputCopy sampleExternals 19 19 := by
  intro x tmp dIn dOut symmetry htmp i hi
  obtain ⟨hi0, hi1⟩ := hi
  have hi1 : i < 361 := by omega
  have hdiv : i / 361 = 0 := by omega
  have hmod : i % 361 = i := by omega
  by_cases hs : symmetry % 2 = 1
  · have hc : isBoardCell 19 19 (360 - i) := ⟨by omega, by omega⟩
    have hdiv2 : (360 - i) / 361 = 0 := by omega
    have hmod2 : (360 - i) % 361 = 360 - i := by omega
    have h := htmp (360 - i) hc
    simp only [sampleExternals, sampleCopyInputs, sampleCopyOutputs, sampleCellMap,
      INPUTS_USE_NHWC] at h ⊢
    norm_num [hs, hi0, hi1, hdiv, hmod, hdiv2, hmod2] at h ⊢
    rw [h, if_pos ⟨by omega, by omega⟩]
  · have h := htmp i ⟨hi0, by omega⟩
    simp only [sampleExternals, sampleCopyInputs, sampleCopyOutputs, sampleCellMap,
      INPUTS_USE_NHWC] at h ⊢
    norm_num [hs, hi0, hi1, hdiv, hmod] at h ⊢
    exact h

theorem sample_first_plane (r symmetry i : Int) (dIn dIn2 : Buf) (hi : isBoardCell 19 19 i) :
    sampleCopyInputs (sampleInputBufs r).rowSpatial dIn 1 19 19 22 false symmetry i =
      sampleCopyInputs (sampleInputBufs r).rowSpatial dIn2 1 19 19 1 false symmetry i := by
  obtain ⟨hi0, hi1⟩ := hi
  have hi1 : i < 361 := by omega
  have h22 : i < 7942 := by omega
  simp only [sampleCopyInputs]
  norm_num [hi0, hi1, h22]

/-- C9: for every row `r` of an accepted batch, the spatial input of row `r` that is
evaluated is the input copy of `inputBufs[r]->rowSpatial` under the tag
`inputBufs[r]->symmetry`; the board-cell policy of `outputs[r]` is the output copy of the
row's blended policy under that same tag, and so is its ownership map when it is requested.
In particular, when the output copy inverts the input copy, a blended policy (an ownership)
that is a plane `x` (`y`) as the input copy presents it comes back as `x` (`y`) on the board
cells. -/
theorem getOutput_symmetry_tag_of_own_row (E : Externals) (gpuHandle : ComputeHandle)
    (inputBuffers : InputBuffers) (n : Int) (inputBufs : Int → NNResultBuf)
    (outputs : Int → NNOutput) (tmp0 : Buf) (r : Int)
    (h1 : 1 ≤ n) (h2 : n ≤ gpuHandle.maxBatchSize) (hr0 : 0 ≤ r) (hr : r < n) :
    ∃ res tmp,
      getOutput E gpuHandle inputBuffers n inputBufs outputs tmp0 = .ok res
      ∧ res.inputBuffers.modelInputs =
          [res.inputBuffers.hostSpatialInputs, res.inputBuffers.hostGlobalInputs]
      ∧ res.inputBuffers.hostSpatialInputs.row r =
          E.copyInputsWithSymmetry (inputBufs r).rowSpatial
            (inputBuffers.hostSpatialInputs.row r) 1 gpuHandle.nnYLen gpuHandle.nnXLen
            E.NUM_SPATIAL_FEATURES INPUTS_USE_NHWC (inputBufs r).symmetry
      ∧ (∀ i, 0 ≤ i → i ≤ gpuHandle.nnXLen * gpuHandle.nnYLen →
          tmp i = blendPolicy (rawPolicyOf E gpuHandle inputBuffers n inputBufs r i)
            (optimisticPolicyOf E gpuHandle inputBuffers n inputBufs r i)
            (inputBufs r).policyOptimism)
      ∧ (∀ i, isBoardCell gpuHandle.nnXLen gpuHandle.nnYLen i →
          (res.outputs r).policyProbs i =
            E.copyOutputsWithSymmetry tmp (outputs r).policyProbs 1 gpuHandle.nnYLen
              gpuHandle.nnXLen (inputBufs r).symmetry i)
      ∧ (∀ ownerMap, (outputs r).whiteOwnerMap = some ownerMap →
          (res.outputs r).whiteOwnerMap =
            some (E.copyOutputsWithSymmetry
              ((modelOutputOf E gpuHandle inputBuffers n inputBufs).ownershipOutputs r) ownerMap
              1 gpuHandle.nnYLen gpuHandle.nnXLen (inputBufs r).symmetry))
      ∧ (OutputCopyInvertsInputCopy E gpuHandle.nnXLen gpuHandle.nnYLen →
          (∀ x dIn : Buf,
            (∀ i, isBoardCell gpuHandle.nnXLen gpuHandle.nnYLen i →
              blendPolicy (rawPolicyOf E gpuHandle inputBuffers n inputBufs r i)
                (optimisticPolicyOf E gpuHandle inputBuffers n inputBufs r i)
                (inputBufs r).policyOptimism =
              E.copyInputsWithSymmetry x dIn 1 gpuHandle.nnYLen gpuHandle.nnXLen 1
                INPUTS_USE_NHWC (inputBufs r).symmetry i) →
            ∀ i, isBoardCell gpuHandle.nnXLen gpuHandle.nnYLen i →
              (res.outputs r).policyProbs i = x i)
          ∧ (∀ (y dIn ownerMap : Buf),
            (outputs r).whiteOwnerMap = some ownerMap →
            (∀ i, isBoardCell gpuHandle.nnXLen gpuHandle.nnYLen i →
              (modelOutputOf E gpuHandle inputBuffers n inputBufs).ownershipOutputs r i =
              E.copyInputsWithSymmetry y dIn 1 gpuHandle.nnYLen gpuHandle.nnXLen 1
                INPUTS_USE_NHWC (inputBufs r).symmetry i) →
            ∃ written, (res.outputs r).whiteOwnerMap = some written
              ∧ ∀ i, isBoardCell gpuHandle.nnXLen gpuHandle.nnYLen i → written i = y i)) := by
  obtain ⟨res, tmp, hres, hbufs, hrow, htmp⟩ :=
    getOutput_row E gpuHandle inputBuffers n inputBufs outputs tmp0 h1 h2 r hr0 hr
  have htmp2 : ∀ i, 0 ≤ i → i ≤ gpuHandle.nnXLen * gpuHandle.nnYLen →
      tmp i = blendPolicy (rawPolicyOf E gpuHandle inputBuffers n inputBufs r i)
        (optimisticPolicyOf E gpuHandle inputBuffers n inputBufs r i)
        (inputBufs r).policyOptimism := by
    intro i hi0 hi
    exact htmp i hi0 (by rw [mul_comm]; omega)
  have hcells : ∀ i, isBoardCell gpuHandle.nnXLen gpuHandle.nnYLen i →
      (res.outputs r).policyProbs i =
        E.copyOutputsWithSymmetry tmp (outputs r).policyProbs 1 gpuHandle.nnYLen
          gpuHandle.nnXLen (inputBufs r).symmetry i := by
    intro i hi
    have hne : i ≠ gpuHandle.nnYLen * gpuHandle.nnXLen := ne_of_lt hi.2
    rw [hrow]
    simp only [outputRow, Function.update_noteq hne]
  have hown : ∀ ownerMap, (outputs r).whiteOwnerMap = some ownerMap →
      (res.outputs r).whiteOwnerMap =
        some (E.copyOutputsWithSymmetry
          ((modelOutputOf E gpuHandle inputBuffers n inputBufs).ownershipOutputs r) ownerMap
          1 gpuHandle.nnYLen gpuHandle.nnXLen (inputBufs r).symmetry) := by
    intro ownerMap hm
    rw [hrow]
    simp [outputRow, hm]
  refine ⟨res, tmp, hres, ?_, ?_, htmp2, hcells, hown, ?_⟩
  · rw [hbufs]
    exact stagedInputs_modelInputs E gpuHandle inputBuffers n inputBufs
  · rw [hbufs, stagedInputs_spatial_row, if_pos ⟨hr0, hr⟩]
  · intro hinv
    constructor
    · intro x dIn hx i hi
      rw [hcells i hi]
      refine hinv x tmp dIn _ _ ?_ i hi
      intro j hj
      rw [htmp2 j hj.1 (by rw [mul_comm]; exact le_of_lt hj.2)]
      exact hx j hj
    · intro y dIn ownerMap hm hy
      exact ⟨_, hown ownerMap hm, fun i hi => hinv y _ dIn _ _ hy i hi⟩

theorem sample_ownershipOutputs (n r : Int) :
    (modelOutputOf sampleExternals sampleHandle sampleInputBuffers n
        sampleInputBufs).ownershipOutputs r =
      (stagedInputs sampleExternals sampleHandle sampleInputBuffers n
          sampleInputBufs).hostSpatialInputs.row r := by
  unfold modelOutputOf
  rw [stagedInputs_modelInputs]
  rfl

theorem sample_row0_policy_is_encoded_plane (i : Int) (hi : isBoardCell 19 19 i) :
    blendPolicy (rawPolicyOf sampleExternals sampleHandle sampleInputBuffers 2 sampleInputBufs 0 i)
        (optimisticPolicyOf sampleExternals sampleHandle sampleInputBuffers 2 sampleInputBufs 0 i)
        (sampleInputBufs 0).policyOptimism =
      sampleExternals.copyInputsWithSymmetry (sampleInputBufs 0).rowSpatial (fun _ => 0) 1 19 19 1
        INPUTS_USE_NHWC (sampleInputBufs 0).symmetry i := by
  have hw : (sampleInputBufs 0).policyOptimism = 0 := by simp [sampleInputBufs]
  rw [hw, blendPolicy_zero]
  unfold rawPolicyOf
  rw [sample_policyOutputs, sample_staged_spatial 2 0 i (by decide) (by decide),
    sample_first_plane 0 (0 + 3) i (fun _ => 0) (fun _ => 0) hi]
  simp only [sampleExternals, INPUTS_USE_NHWC, sampleInputBufs]
  norm_num

theorem sample_row0_ownership_is_encoded_plane (i : Int) (hi : isBoardCell 19 19 i) :
    (modelOutputOf sampleExternals sampleHandle sampleInputBuffers 2
        sampleInputBufs).ownershipOutputs 0 i =
      sampleExternals.copyInputsWithSymmetry (sampleInputBufs 0).rowSpatial (fun _ => 0) 1 19 19 1
        INPUTS_USE_NHWC (sampleInputBufs 0).symmetry i := by
  rw [sample_ownershipOutputs, sample_staged_spatial 2 0 i (by decide) (by decide),
    sample_first_plane 0 (0 + 3) i (fun _ => 0) (fun _ => 0) hi]
  simp only [sampleExternals, INPUTS_USE_NHWC, sampleInputBufs]

theorem getOutput_symmetry_tag_of_own_row_witness :
    (1 : Int) ≤ 2 ∧ (2 : Int) ≤ sampleHandle.maxBatchSize ∧ (0 : Int) ≤ 0 ∧ (0 : Int) < 2
    ∧ OutputCopyInvertsInputCopy sampleExternals sampleHandle.nnXLen sampleHandle.nnYLen
    ∧ (sampleInputBufs 0).symmetry = 3
    ∧ ∃ res,
      getOutput sampleExternals sampleHandle sampleInputBuffers 2 sampleInputBufs sampleOutputs
          sampleTmp = .ok res
      ∧ res.inputBuffers.hostSpatialInputs.row 0 =
          sampleCopyInputs (sampleInputBufs 0).rowSpatial
            (sampleInputBuffers.hostSpatialInputs.row 0) 1 19 19 22 false 3
      ∧ (∀ i, isBoardCell 19 19 i →
          (res.outputs 0).policyProbs i = (sampleInputBufs 0).rowSpatial i)
      ∧ ∃ written, (res.outputs 0).whiteOwnerMap = some written
          ∧ ∀ i, isBoardCell 19 19 i → written i = (sampleInputBufs 0).rowSpatial i := by
  obtain ⟨res, tmp, hres, -, hin, -, -, -, hd⟩ :=
    getOutput_symmetry_tag_of_own_row sampleExternals sampleHandle sampleInputBuffers 2
      sampleInputBufs sampleOutputs sampleTmp 0 (by decide) (by decide) (by decide) (by decide)
  obtain ⟨hpol, hown⟩ := hd sample_outputCopy_inverts
  exact ⟨by decide, by decide, by decide, by decide, sample_outputCopy_inverts, by decide,
    res, hres, hin,
    hpol (sampleInputBufs 0).rowSpatial (fun _ => 0) sample_row0_policy_is_encoded_plane,
    hown (sampleInputBufs 0).rowSpatial (fun _ => 0) (fun _ => 0) rfl
      sample_row0_ownership_is_encoded_plane⟩

/-! ## Board length and buffer bounds -/

theorem createComputeContext_ok_iff (gpuIdxs : List Int) (nnXLen nnYLen : Int)
    (openCLTunerFile homeDataDirOverride : String) (openCLReTunePerBoardSize : Bool)
    (useFP16Mode useNHWCMode : enabled_t) (loadedModel : LoadedModel) (context : ComputeContext) :
    createComputeContext gpuIdxs nnXLen nnYLen openCLTunerFile homeDataDirOverride
        openCLReTunePerBoardSize useFP16Mode useNHWCMode loadedModel = .ok context
      ↔ (useNHWCMode ≠ enabled_t.False ∧ nnXLen = 19 ∧ nnYLen = 19
          ∧ context = ComputeContext.new nnXLen nnYLen useFP16Mode) := by
  unfold createComputeContext BOARD_LEN
  simp only
  by_cases hg : useNHWCMode = enabled_t.False
  · simp [hg]
  · by_cases hx : nnXLen = 19
    · by_cases hy : nnYLen = 19
      · simp [hg, hx, hy, eq_comm]
      · simp [hg, hx, hy]
    · simp [hg, hx]

theorem createComputeContext_assertFailed_iff (gpuIdxs : List Int) (nnXLen nnYLen : Int)
    (openCLTunerFile homeDataDirOverride : String) (openCLReTunePerBoardSize : Bool)
    (useFP16Mode useNHWCMode : enabled_t) (loadedModel : LoadedModel) :
    (∃ expr, createComputeContext gpuIdxs nnXLen nnYLen openCLTunerFile homeDataDirOverride
        openCLReTunePerBoardSize useFP16Mode useNHWCMode loadedModel
          = .error (.assertFailed expr))
      ↔ (useNHWCMode ≠ enabled_t.False ∧ ¬ (nnXLen = 19 ∧ nnYLen = 19)) := by
  unfold createComputeContext BOARD_LEN
  simp only
  by_cases hg : useNHWCMode = enabled_t.False
  · simp [hg]
  · by_cases hx : nnXLen = 19
    · by_cases hy : nnYLen = 19
      · simp [hg, hx, hy]
      · simp [hg, hx, hy]
    · simp [hg, hx]

/-- C11: the board length is the constant 19.  A call of `createComputeContext` that gets
past the NHWC guard fails an assertion exactly when `nnXLen = 19` and `nnYLen = 19` do not
both hold; it returns a context exactly when it gets past the guard and both hold; and every
context it returns has `nnXLen = nnYLen = 19`, these being the two arguments, stored
unchanged. -/
theorem createComputeContext_board_length_is_19 (gpuIdxs : List Int) (nnXLen nnYLen : Int)
    (openCLTunerFile homeDataDirOverride : String) (openCLReTunePerBoardSize : Bool)
    (useFP16Mode useNHWCMode : enabled_t) (loadedModel : LoadedModel) :
    BOARD_LEN = 19
    ∧ ((∃ expr, createComputeContext gpuIdxs nnXLen nnYLen openCLTunerFile homeDataDirOverride
          openCLReTunePerBoardSize useFP16Mode useNHWCMode loadedModel
            = .error (.assertFailed expr))
        ↔ (useNHWCMode ≠ enabled_t.False ∧ ¬ (nnXLen = 19 ∧ nnYLen = 19)))
    ∧ ((∃ context, createComputeContext gpuIdxs nnXLen nnYLen openCLTunerFile
          homeDataDirOverride openCLReTunePerBoardSize useFP16Mode useNHWCMode loadedModel
            = .ok context)
        ↔ (useNHWCMode ≠ enabled_t.False ∧ nnXLen = 19 ∧ nnYLen = 19))
    ∧ (∀ context, createComputeContext gpuIdxs nnXLen nnYLen openCLTunerFile
          homeDataDirOverride openCLReTunePerBoardSize useFP16Mode useNHWCMode loadedModel
            = .ok context →
        context.nnXLen = 19 ∧ context.nnYLen = 19
        ∧ context.nnXLen = nnXLen ∧ context.nnYLen = nnYLen) := by
  refine ⟨rfl, createComputeContext_assertFailed_iff _ _ _ _ _ _ _ _ _, ?_, ?_⟩
  · constructor
    · rintro ⟨context, hc⟩
      obtain ⟨hg, hx, hy, -⟩ := (createComputeContext_ok_iff _ _ _ _ _ _ _ _ _ _).mp hc
      exact ⟨hg, hx, hy⟩
    · rintro ⟨hg, hx, hy⟩
      exact ⟨_, (createComputeContext_ok_iff _ _ _ _ _ _ _ _ _ _).mpr ⟨hg, hx, hy, rfl⟩⟩
  · intro context hc
    obtain ⟨-, hx, hy, hctx⟩ := (createComputeContext_ok_iff _ _ _ _ _ _ _ _ _ _).mp hc
    subst hctx
    exact ⟨hx, hy, rfl, rfl⟩

theorem createComputeContext_board_length_is_19_witness :
    createComputeContext [0] 19 19 "" "" false enabled_t.False enabled_t.True sampleLoadedModel
        = .ok sampleContext
    ∧ sampleContext.nnXLen = 19 ∧ sampleContext.nnYLen = 19
    ∧ sampleContext.nnXLen = 19 ∧ sampleContext.nnYLen = 19 :=
  ⟨rfl,
    (createComputeContext_board_length_is_19 [0] 19 19 "" "" false enabled_t.False
      enabled_t.True sampleLoadedModel).2.2.2 sampleContext rfl⟩

theorem foldl_fillInputRow_shape (E : Externals) (nnXLen nnYLen : Int)
    (inputBufs : Int → NNResultBuf) (l : List Int) (ib : InputBuffers) :
    (l.foldl (fillInputRow E nnXLen nnYLen inputBufs) ib).hostSpatialInputs.shape
        = ib.hostSpatialInputs.shape
    ∧ (l.foldl (fillInputRow E nnXLen nnYLen inputBufs) ib).hostGlobalInputs.shape
        = ib.hostGlobalInputs.shape := by
  induction l generalizing ib with
  | nil => exact ⟨rfl, rfl⟩
  | cons a l ih =>
    rw [List.foldl_cons]
    obtain ⟨h1, h2⟩ := ih (fillInputRow E nnXLen nnYLen inputBufs ib a)
    exact ⟨h1, h2⟩

theorem createComputeHandle_ok (context : ComputeContext) (loadedModel : LoadedModel)
    (maxBatchSize : Int) (requireExactNNLen inputsUseNHWC : Bool)
    (gpuIdxForThisThread serverThreadIdx : Int) (gpuHandle : ComputeHandle)
    (h : createComputeHandle context loadedModel maxBatchSize requireExactNNLen inputsUseNHWC
        gpuIdxForThisThread serverThreadIdx = .ok gpuHandle) :
    gpuHandle.maxBatchSize = maxBatchSize ∧ gpuHandle.nnXLen = context.nnXLen
    ∧ gpuHandle.nnYLen = context.nnYLen := by
  unfold createComputeHandle at h
  cases inputsUseNHWC
  · simp only [Bool.false_eq_true, if_false] at h
    have h := Except.ok.inj h
    subst h
    exact ⟨rfl, rfl, rfl⟩
  · simp at h

/-- C12: let the handle come from `createComputeHandle` on a context returned by
`createComputeContext`, the input buffers from `createInputBuffers` with the handle's
`maxBatchSize`, `nnXLen`, `nnYLen`, let `1 <= numBatchEltsFilled <= maxBatchSize` and
`NNPos::MAX_NN_POLICY_SIZE >= 19*19+1`.  Then the board is 19 x 19, both host input tensors
have `maxBatchSize` rows before and after the input loop, every row index of the loops is
`>= 0` and `< maxBatchSize`, every index the policy loop writes in `policyProbsTmp` (and the
pass index read afterwards) is `>= 0` and `<= 361 < MAX_NN_POLICY_SIZE`, nothing is stored
outside these ranges, and `getOutput` returns. -/
theorem getOutput_indices_in_bounds (E : Externals) (gpuIdxs : List Int) (nnXLen nnYLen : Int)
    (openCLTunerFile homeDataDirOverride : String) (openCLReTunePerBoardSize : Bool)
    (useFP16Mode useNHWCMode : enabled_t) (loadedModel : LoadedModel)
    (context : ComputeContext) (maxBatchSize : Int) (requireExactNNLen inputsUseNHWC : Bool)
    (gpuIdxForThisThread serverThreadIdx : Int) (gpuHandle : ComputeHandle)
    (spatial0 global0 : Int → Buf) (inputBuffers : InputBuffers) (n : Int)
    (inputBufs : Int → NNResultBuf) (outputs : Int → NNOutput) (tmp0 : Buf)
    (hcontext : createComputeContext gpuIdxs nnXLen nnYLen openCLTunerFile homeDataDirOverride
        openCLReTunePerBoardSize useFP16Mode useNHWCMode loadedModel = .ok context)
    (hhandle : createComputeHandle context loadedModel maxBatchSize requireExactNNLen
        inputsUseNHWC gpuIdxForThisThread serverThreadIdx = .ok gpuHandle)
    (hbuffers : inputBuffers = createInputBuffers E spatial0 global0 loadedModel
        gpuHandle.maxBatchSize gpuHandle.nnXLen gpuHandle.nnYLen)
    (h1 : 1 ≤ n) (h2 : n ≤ gpuHandle.maxBatchSize)
    (hmax : E.MAX_NN_POLICY_SIZE ≥ 19 * 19 + 1) :
    (gpuHandle.nnXLen = 19 ∧ gpuHandle.nnYLen = 19)
    ∧ (∃ res, getOutput E gpuHandle inputBuffers n inputBufs outputs tmp0 = .ok res
        ∧ res.inputBuffers = stagedInputs E gpuHandle inputBuffers n inputBufs)
    ∧ (inputBuffers.hostSpatialInputs.numRows = gpuHandle.maxBatchSize
        ∧ inputBuffers.hostGlobalInputs.numRows = gpuHandle.maxBatchSize)
    ∧ ((stagedInputs E gpuHandle inputBuffers n inputBufs).hostSpatialInputs.numRows
          = gpuHandle.maxBatchSize
        ∧ (stagedInputs E gpuHandle inputBuffers n inputBufs).hostGlobalInputs.numRows
          = gpuHandle.maxBatchSize)
    ∧ (∀ row ∈ rowIndices n,
        0 ≤ row ∧ row < gpuHandle.maxBatchSize
        ∧ row < inputBuffers.hostSpatialInputs.numRows
        ∧ row < inputBuffers.hostGlobalInputs.numRows)
    ∧ (∀ i ∈ policyIndices gpuHandle.nnXLen gpuHandle.nnYLen,
        0 ≤ i ∧ i ≤ 361 ∧ 361 < E.MAX_NN_POLICY_SIZE)
    ∧ (0 ≤ gpuHandle.nnYLen * gpuHandle.nnXLen ∧ gpuHandle.nnYLen * gpuHandle.nnXLen ≤ 361
        ∧ gpuHandle.nnYLen * gpuHandle.nnXLen < E.MAX_NN_POLICY_SIZE)
    ∧ (∀ (p q tmp : Buf) (w : ℚ) (j : Int), ¬ (0 ≤ j ∧ j ≤ 361) →
        fillPolicyProbsTmp gpuHandle.nnXLen gpuHandle.nnYLen p q w tmp j = tmp j)
    ∧ (∀ k, ¬ (0 ≤ k ∧ k < gpuHandle.maxBatchSize) →
        (stagedInputs E gpuHandle inputBuffers n inputBufs).hostSpatialInputs.row k
          = inputBuffers.hostSpatialInputs.row k
        ∧ (stagedInputs E gpuHandle inputBuffers n inputBufs).hostGlobalInputs.row k
          = inputBuffers.hostGlobalInputs.row k) := by
  obtain ⟨-, hx, hy, hctx⟩ := (createComputeContext_ok_iff _ _ _ _ _ _ _ _ _ _).mp hcontext
  obtain ⟨-, hhx, hhy⟩ := createComputeHandle_ok _ _ _ _ _ _ _ _ hhandle
  have hX : gpuHandle.nnXLen = 19 := by rw [hhx, hctx]; exact hx
  have hY : gpuHandle.nnYLen = 19 := by rw [hhy, hctx]; exact hy
  have hrows : inputBuffers.hostSpatialInputs.numRows = gpuHandle.maxBatchSize
      ∧ inputBuffers.hostGlobalInputs.numRows = gpuHandle.maxBatchSize := by
    rw [hbuffers]
    exact ⟨rfl, rfl⟩
  have hshape := foldl_fillInputRow_shape E gpuHandle.nnXLen gpuHandle.nnYLen inputBufs
    (rowIndices n) inputBuffers
  have hstaged : (stagedInputs E gpuHandle inputBuffers n inputBufs).hostSpatialInputs.numRows
        = gpuHandle.maxBatchSize
      ∧ (stagedInputs E gpuHandle inputBuffers n inputBufs).hostGlobalInputs.numRows
        = gpuHandle.maxBatchSize := by
    constructor
    · rw [← hrows.1]
      exact congrArg (fun sh => List.headD sh 0) hshape.1
    · rw [← hrows.2]
      exact congrArg (fun sh => List.headD sh 0) hshape.2
  refine ⟨⟨hX, hY⟩,
    ⟨_, getOutput_eq_ok E gpuHandle inputBuffers n inputBufs outputs tmp0 h1 h2, rfl⟩,
    hrows, hstaged, ?_, ?_, ?_, ?_, ?_⟩
  · intro row hrow
    have hmem := (mem_loopIndices n row).mp hrow
    rw [hrows.1, hrows.2]
    exact ⟨hmem.1, by omega, by omega, by omega⟩
  · intro i hi
    have hmem := (mem_loopIndices _ i).mp hi
    rw [hX, hY] at hmem
    exact ⟨hmem.1, by omega, by omega⟩
  · rw [hX, hY]
    exact ⟨by omega, by omega, by omega⟩
  · intro p q tmp w j hj
    rw [fillPolicyProbsTmp_apply, hX, hY, if_neg]
    intro hj2
    exact hj ⟨hj2.1, by omega⟩
  · intro k hk
    rw [stagedInputs_spatial_row, stagedInputs_global_row, if_neg, if_neg]
    · exact ⟨rfl, rfl⟩
    · intro hk2
      exact hk ⟨hk2.1, by omega⟩
    · intro hk2
      exact hk ⟨hk2.1, by omega⟩

theorem getOutput_indices_in_bounds_witness :
    createComputeContext [0] 19 19 "" "" false enabled_t.False enabled_t.True sampleLoadedModel
        = .ok sampleContext
    ∧ createComputeHandle sampleContext sampleLoadedModel 4 false false 0 0 = .ok sampleHandle
    ∧ sampleInputBuffers = createInputBuffers sampleExternals (fun _ _ => 0) (fun _ _ => 0)
        sampleLoadedModel sampleHandle.maxBatchSize sampleHandle.nnXLen sampleHandle.nnYLen
    ∧ (1 : Int) ≤ 2 ∧ (2 : Int) ≤ sampleHandle.maxBatchSize
    ∧ sampleExternals.MAX_NN_POLICY_SIZE ≥ 19 * 19 + 1
    ∧ (sampleHandle.nnXLen = 19 ∧ sampleHandle.nnYLen = 19)
    ∧ (∃ res, getOutput sampleExternals sampleHandle sampleInputBuffers 2 sampleInputBufs
          sampleOutputs sampleTmp = .ok res
        ∧ res.inputBuffers
          = stagedInputs sampleExternals sampleHandle sampleInputBuffers 2 sampleInputBufs)
    ∧ (sampleInputBuffers.hostSpatialInputs.numRows = sampleHandle.maxBatchSize
        ∧ sampleInputBuffers.hostGlobalInputs.numRows = sampleHandle.maxBatchSize)
    ∧ ((stagedInputs sampleExternals sampleHandle sampleInputBuffers 2
          sampleInputBufs).hostSpatialInputs.numRows = sampleHandle.maxBatchSize
        ∧ (stagedInputs sampleExternals sampleHandle sampleInputBuffers 2
          sampleInputBufs).hostGlobalInputs.numRows = sampleHandle.maxBatchSize)
    ∧ (∀ row ∈ rowIndices 2,
        0 ≤ row ∧ row < sampleHandle.maxBatchSize
        ∧ row < sampleInputBuffers.hostSpatialInputs.numRows
        ∧ row < sampleInputBuffers.hostGlobalInputs.numRows)
    ∧ (∀ i ∈ policyIndices sampleHandle.nnXLen sampleHandle.nnYLen,
        0 ≤ i ∧ i ≤ 361 ∧ 361 < sampleExternals.MAX_NN_POLICY_SIZE)
    ∧ (0 ≤ sampleHandle.nnYLen * sampleHandle.nnXLen
        ∧ sampleHandle.nnYLen * sampleHandle.nnXLen ≤ 361
        ∧ sampleHandle.nnYLen * sampleHandle.nnXLen < sampleExternals.MAX_NN_POLICY_SIZE)
    ∧ (∀ (p q tmp : Buf) (w : ℚ) (j : Int), ¬ (0 ≤ j ∧ j ≤ 361) →
        fillPolicyProbsTmp sampleHandle.nnXLen sampleHandle.nnYLen p q w tmp j = tmp j)
    ∧ (∀ k, ¬ (0 ≤ k ∧ k < sampleHandle.maxBatchSize) →
        (stagedInputs sampleExternals sampleHandle sampleInputBuffers 2
            sampleInputBufs).hostSpatialInputs.row k
          = sampleInputBuffers.hostSpatialInputs.row k
        ∧ (stagedInputs sampleExternals sampleHandle sampleInputBuffers 2
            sampleInputBufs).hostGlobalInputs.row k
          = sampleInputBuffers.hostGlobalInputs.row k) :=
  ⟨rfl, rfl, rfl, by decide, by decide, by decide,
    getOutput_indices_in_bounds sampleExternals [0] 19 19 "" "" false enabled_t.False
      enabled_t.True sampleLoadedModel sampleContext 4 false false 0 0 sampleHandle
      (fun _ _ => 0) (fun _ _ => 0) sampleInputBuffers 2 sampleInputBufs sampleOutputs sampleTmp
      rfl rfl rfl (by decide) (by decide) (by decide)⟩

end TorchNeuralNet
